import Mathlib

/-!
Verification of the Cognitive Memory & Retrieval Engine of the
Terraform-Driven-Ray-on-Kubernetes-Platform repository.

Shallow embedding conventions:
* Python floats are modelled as real numbers (`ℝ`) where irrational
  functions (`sqrt`, `exp`) occur, and as rationals (`ℚ`) for stored
  JSON numbers, which are always finite decimals.
* Python strings are Lean `String`s; `len` is `String.length`
  (both count code points).
* Fallible operations return `Option`.
* The injected embedding model (`model.encode`) is an explicit function
  parameter, per the spec's "injected external capability" design.
-/

set_option maxHeartbeats 1000000
set_option maxRecDepth 100000

namespace RayMemory

/-! ## scripts/memory_retriever.py — cosine_similarity

The Python loop accumulates `dot`, `mag_a`, `mag_b` in one pass over
`zip(a, b)`; `cosineLoop` is that pass, returning the triple. -/

/-- The accumulation loop of `cosine_similarity`: one pass over `zip(a, b)`
building `(dot, mag_a, mag_b)` from `(0, 0, 0)`. -/
def cosineLoop (a b : List ℝ) : ℝ × ℝ × ℝ :=
  (a.zip b).foldl
    (fun s p => (s.1 + p.1 * p.2, s.2.1 + p.1 * p.1, s.2.2 + p.2 * p.2))
    (0, 0, 0)

/-- `cosine_similarity(a, b)` from scripts/memory_retriever.py:
returns 0.0 on dimension mismatch, else `dot / (sqrt mag_a * sqrt mag_b)`,
with 0.0 when the denominator is zero. -/
noncomputable def cosine_similarity (a b : List ℝ) : ℝ :=
  if a.length ≠ b.length then 0
  else
    let s := cosineLoop a b
    let denom := Real.sqrt s.2.1 * Real.sqrt s.2.2
    if denom = 0 then 0 else s.1 / denom

/-- The dot product computed by the loop (over the zipped pairs). -/
def listDot (a b : List ℝ) : ℝ := ((a.zip b).map fun p => p.1 * p.2).sum

lemma cosineLoop_foldl (l : List (ℝ × ℝ)) (d ma mb : ℝ) :
    l.foldl (fun s p => (s.1 + p.1 * p.2, s.2.1 + p.1 * p.1, s.2.2 + p.2 * p.2)) (d, ma, mb)
      = (d + (l.map fun p => p.1 * p.2).sum,
         ma + (l.map fun p => p.1 * p.1).sum,
         mb + (l.map fun p => p.2 * p.2).sum) := by
  induction l generalizing d ma mb with
  | nil => simp
  | cons p t ih =>
      simp only [List.foldl_cons, List.map_cons, List.sum_cons, ih]
      refine Prod.ext (by ring) (Prod.ext (by ring) (by ring))

lemma cosineLoop_eq (a b : List ℝ) :
    cosineLoop a b = (((a.zip b).map fun p => p.1 * p.2).sum,
                      ((a.zip b).map fun p => p.1 * p.1).sum,
                      ((a.zip b).map fun p => p.2 * p.2).sum) := by
  simpa using cosineLoop_foldl (a.zip b) 0 0 0

lemma zip_self_eq_map (a : List ℝ) : a.zip a = a.map fun x => (x, x) := by
  induction a with
  | nil => rfl
  | cons x t ih => simp [List.zip_cons_cons, ih]

lemma zip_map_neg (a : List ℝ) :
    a.zip (a.map fun x => -x) = a.map fun x => (x, -x) := by
  induction a with
  | nil => rfl
  | cons x t ih => simp [List.zip_cons_cons, ih]

lemma sum_sq_nonneg (a : List ℝ) : 0 ≤ (a.map fun x => x * x).sum := by
  refine List.sum_nonneg ?_
  intro y hy
  obtain ⟨x, _, rfl⟩ := List.mem_map.mp hy
  exact mul_self_nonneg x

lemma sum_sq_eq_zero_iff (a : List ℝ) :
    (a.map fun x => x * x).sum = 0 ↔ ∀ x ∈ a, x = 0 := by
  induction a with
  | nil => simp
  | cons x t ih =>
      simp only [List.map_cons, List.sum_cons, List.mem_cons]
      rw [add_eq_zero_iff_of_nonneg (mul_self_nonneg x) (sum_sq_nonneg t)]
      rw [mul_self_eq_zero, ih]
      constructor
      · rintro ⟨hx, ht⟩ y (rfl | hy)
        · exact hx
        · exact ht y hy
      · intro h
        exact ⟨h x (Or.inl rfl), fun y hy => h y (Or.inr hy)⟩

lemma cosine_self (a : List ℝ) (ha : ∃ x ∈ a, x ≠ 0) :
    cosine_similarity a a = 1 := by
  have hS : (a.map fun x => x * x).sum ≠ 0 := by
    rw [Ne, sum_sq_eq_zero_iff]
    rintro h
    obtain ⟨x, hx, hxne⟩ := ha
    exact hxne (h x hx)
  have hSnn : 0 ≤ (a.map fun x => x * x).sum := sum_sq_nonneg a
  unfold cosine_similarity
  rw [if_neg (by simp)]
  have hloop : cosineLoop a a
      = ((a.map fun x => x * x).sum, (a.map fun x => x * x).sum,
         (a.map fun x => x * x).sum) := by
    rw [cosineLoop_eq, zip_self_eq_map]
    simp [List.map_map, Function.comp_def]
  rw [hloop]
  simp only
  rw [Real.mul_self_sqrt hSnn, if_neg hS, div_self hS]

lemma sum_mul_neg (a : List ℝ) :
    (a.map fun x => x * -x).sum = -(a.map fun x => x * x).sum := by
  induction a with
  | nil => simp
  | cons x t ih =>
      simp only [List.map_cons, List.sum_cons, ih]
      ring

lemma sum_neg_mul_neg (a : List ℝ) :
    (a.map fun x => -x * -x).sum = (a.map fun x => x * x).sum := by
  induction a with
  | nil => simp
  | cons x t ih =>
      simp only [List.map_cons, List.sum_cons, ih]
      ring

lemma cosine_neg (a : List ℝ) (ha : ∃ x ∈ a, x ≠ 0) :
    cosine_similarity a (a.map fun x => -x) = -1 := by
  have hS : (a.map fun x => x * x).sum ≠ 0 := by
    rw [Ne, sum_sq_eq_zero_iff]
    rintro h
    obtain ⟨x, hx, hxne⟩ := ha
    exact hxne (h x hx)
  have hSnn : 0 ≤ (a.map fun x => x * x).sum := sum_sq_nonneg a
  unfold cosine_similarity
  rw [if_neg (by simp)]
  have hloop : cosineLoop a (a.map fun x => -x)
      = (-(a.map fun x => x * x).sum, (a.map fun x => x * x).sum,
         (a.map fun x => x * x).sum) := by
    rw [cosineLoop_eq, zip_map_neg]
    simp only [List.map_map, Function.comp_def]
    exact Prod.ext (sum_mul_neg a) (Prod.ext (by simp) (sum_neg_mul_neg a))
  rw [hloop]
  simp only
  rw [Real.mul_self_sqrt hSnn, if_neg hS, neg_div, div_self hS]

lemma cosine_orthogonal (a b : List ℝ) (hlen : a.length = b.length)
    (hdot : listDot a b = 0) : cosine_similarity a b = 0 := by
  unfold cosine_similarity
  rw [if_neg (by simp [hlen])]
  simp only
  rw [cosineLoop_eq]
  simp only
  unfold listDot at hdot
  rcases eq_or_ne (Real.sqrt ((a.zip b).map fun p => p.1 * p.1).sum *
      Real.sqrt ((a.zip b).map fun p => p.2 * p.2).sum) 0 with h | h
  · rw [if_pos h]
  · rw [if_neg h, hdot, zero_div]

lemma cosine_zero_mag (a b : List ℝ)
    (h : (∀ x ∈ a, x = 0) ∨ (∀ x ∈ b, x = 0) ∨ a.length ≠ b.length) :
    cosine_similarity a b = 0 := by
  unfold cosine_similarity
  rcases eq_or_ne a.length b.length with hlen | hlen
  · rw [if_neg (by simp [hlen])]
    simp only
    rw [cosineLoop_eq]
    simp only
    rcases h with h | h | h
    · have hA : ((a.zip b).map fun p => p.1 * p.1).sum = 0 := by
        refine List.sum_eq_zero ?_
        intro y hy
        obtain ⟨⟨x, z⟩, hmem, rfl⟩ := List.mem_map.mp hy
        have hx : x ∈ a := (List.of_mem_zip hmem).1
        rw [h x hx, mul_zero]
      rw [hA, Real.sqrt_zero, zero_mul, if_pos rfl]
    · have hB : ((a.zip b).map fun p => p.2 * p.2).sum = 0 := by
        refine List.sum_eq_zero ?_
        intro y hy
        obtain ⟨⟨x, z⟩, hmem, rfl⟩ := List.mem_map.mp hy
        have hz : z ∈ b := (List.of_mem_zip hmem).2
        rw [h z hz, mul_zero]
      rw [hB, Real.sqrt_zero, mul_zero, if_pos rfl]
    · exact absurd hlen h
  · rw [if_pos (by simp [hlen])]

/-- C1 counterexample: the claim "if the two vectors are identical it returns
1.0" fails at the identical pair `a = b = [0.0]`, which has zero magnitude:
the code returns 0.0 there, not 1.0. -/
theorem claim1_counterexample :
    cosine_similarity [(0 : ℝ)] [(0 : ℝ)] = 0 ∧
    ¬ cosine_similarity [(0 : ℝ)] [(0 : ℝ)] = 1 := by
  have h0 : cosine_similarity [(0 : ℝ)] [(0 : ℝ)] = 0 := by
    unfold cosine_similarity cosineLoop
    norm_num
  exact ⟨h0, by rw [h0]; norm_num⟩

/-- C1 (amended): `cosine_similarity` is total (a Lean function, never raises);
identical vectors of nonzero magnitude give 1.0; same-dimension orthogonal
vectors give 0.0; a vector and its negation give -1.0 when the magnitude is
nonzero; zero-magnitude or dimension-mismatched inputs give 0.0. -/
theorem claim1_theorem :
    (∀ a : List ℝ, (∃ x ∈ a, x ≠ 0) → cosine_similarity a a = 1) ∧
    (∀ a b : List ℝ, a.length = b.length → listDot a b = 0 →
      cosine_similarity a b = 0) ∧
    (∀ a : List ℝ, (∃ x ∈ a, x ≠ 0) →
      cosine_similarity a (a.map fun x => -x) = -1) ∧
    (∀ a b : List ℝ,
      (∀ x ∈ a, x = 0) ∨ (∀ x ∈ b, x = 0) ∨ a.length ≠ b.length →
      cosine_similarity a b = 0) :=
  ⟨cosine_self, cosine_orthogonal, cosine_neg, cosine_zero_mag⟩

/-- C1 witness: the amended theorem applied at concrete inputs. -/
theorem claim1_witness :
    cosine_similarity [(3 : ℝ)] [(3 : ℝ)] = 1 ∧
    cosine_similarity [(1 : ℝ), 0] [(0 : ℝ), 1] = 0 ∧
    cosine_similarity [(2 : ℝ)] [(-2 : ℝ)] = -1 ∧
    cosine_similarity [(0 : ℝ)] [(5 : ℝ)] = 0 := by
  refine ⟨claim1_theorem.1 [(3 : ℝ)] ⟨3, by simp, by norm_num⟩,
          claim1_theorem.2.1 [(1 : ℝ), 0] [(0 : ℝ), 1] (by simp)
            (by simp [listDot]),
          ?_, claim1_theorem.2.2.2 [(0 : ℝ)] [(5 : ℝ)] (Or.inl (by simp))⟩
  have h := claim1_theorem.2.2.1 [(2 : ℝ)] ⟨2, by simp, by norm_num⟩
  simpa using h

/-! ## scripts/memory_retriever.py — recency weight and composite scoring -/

/-- `_RECENCY_HALF_LIFE_SECONDS = 30 * 24 * 3600`. -/
def RECENCY_HALF_LIFE_SECONDS : ℕ := 30 * 24 * 3600

/-- Gregorian leap-year test (as in Python's `datetime`). -/
def isLeapYear (y : ℤ) : Bool := y % 4 = 0 ∧ (y % 100 ≠ 0 ∨ y % 400 = 0)

/-- Days in a month of the proleptic Gregorian calendar. -/
def daysInMonth (y m : ℤ) : ℤ :=
  if m = 1 then 31 else if m = 2 then (if isLeapYear y then 29 else 28)
  else if m = 3 then 31 else if m = 4 then 30 else if m = 5 then 31
  else if m = 6 then 30 else if m = 7 then 31 else if m = 8 then 31
  else if m = 9 then 30 else if m = 10 then 31 else if m = 11 then 30
  else 31

/-- Days from 1970-01-01 to y-m-d in the proleptic Gregorian calendar
(civil-from-days inverse; valid for y ≥ 1, which parsing guarantees). -/
def daysFromCivil (y m d : ℤ) : ℤ :=
  let yAdj := if m ≤ 2 then y - 1 else y
  let era := yAdj / 400
  let yoe := yAdj - era * 400
  let mp := if m > 2 then m - 3 else m + 9
  let doy := (153 * mp + 2) / 5 + d - 1
  let doe := yoe * 365 + yoe / 4 - yoe / 100 + doy
  era * 146097 + doe - 719468

/-- ASCII decimal digit value of a char, if it is a digit. -/
def digitVal (c : Char) : Option ℤ :=
  if c.isDigit then some ((c.toNat : ℤ) - 48) else none

/-- `_parse_iso(ts)`: parse `"%Y-%m-%dT%H:%M:%SZ"` into POSIX seconds,
returning 0.0 on parse failure (any format or range violation, including
`datetime`'s year ≥ 1 requirement). The strftime producers and the
length-20 gate in `_recency_weight` make the exact-width digit fields
the only reachable shapes. Result is an integral number of seconds,
modelled in ℚ. -/
def parse_iso (ts : String) : ℚ :=
  match ts.toList with
  | [y1, y2, y3, y4, '-', m1, m2, '-', d1, d2, 'T',
     h1, h2, ':', n1, n2, ':', s1, s2, 'Z'] =>
    match digitVal y1, digitVal y2, digitVal y3, digitVal y4,
          digitVal m1, digitVal m2, digitVal d1, digitVal d2,
          digitVal h1, digitVal h2, digitVal n1, digitVal n2,
          digitVal s1, digitVal s2 with
    | some a, some b, some c, some d, some e, some f, some g, some h,
      some i, some j, some k, some l, some m, some n =>
        let year := 1000 * a + 100 * b + 10 * c + d
        let month := 10 * e + f
        let day := 10 * g + h
        let hour := 10 * i + j
        let minute := 10 * k + l
        let second := 10 * m + n
        if 1 ≤ year ∧ 1 ≤ month ∧ month ≤ 12 ∧ 1 ≤ day ∧
            day ≤ daysInMonth year month ∧ hour ≤ 23 ∧ minute ≤ 59 ∧
            second ≤ 59 then
          ((86400 * daysFromCivil year month day +
            3600 * hour + 60 * minute + second : ℤ) : ℚ)
        else 0
    | _, _, _, _, _, _, _, _, _, _, _, _, _, _ => 0
  | _ => 0

/-- `_recency_weight(record_timestamp_or_hash, now_ts)`: exponential decay
`exp(-ln 2 / half_life × Δt)` when the first argument looks like a
timestamp (length 20 and contains "T") and both parses are positive;
the neutral 0.5 prior otherwise. -/
noncomputable def recency_weight (record_ts_or_hash now_ts : String) : ℝ :=
  if record_ts_or_hash.length = 20 ∧ 'T' ∈ record_ts_or_hash.toList then
    let record_ts := parse_iso record_ts_or_hash
    let now_posix := parse_iso now_ts
    if record_ts > 0 ∧ now_posix > 0 then
      let delta : ℚ := max 0 (now_posix - record_ts)
      let lam : ℝ := Real.log 2 / (RECENCY_HALF_LIFE_SECONDS : ℝ)
      Real.exp (-(lam * (delta : ℝ)))
    else 0.5
  else 0.5

/-- One record of an embeddings archive, as read by the retriever and
written by the embedding engine (vector values are finite decimals). -/
structure EmbRecord where
  file_path : String
  hash : String
  chunk_index : ℕ
  total_chunks : ℕ
  embedding : List ℚ
deriving DecidableEq

/-- Read a stored JSON vector (finite decimals) as a real vector. -/
def toRealList (v : List ℚ) : List ℝ := v.map fun q : ℚ => (q : ℝ)

lemma mem_toRealList {v : List ℚ} {x : ℚ} (hx : x ∈ v) :
    (x : ℝ) ∈ toRealList v := List.mem_map.mpr ⟨x, hx, rfl⟩

/-- The per-candidate score computed in the loop body of
`MemoryRetriever.top_k`: with weighted scoring, the composite
`0.6·semantic + 0.2·recency + 0.1·exec_success + 0.1·arch_relevance`
(exec weight defaulting to 0.5 for paths with no history, architectural
relevance 1.0 iff the path is architecturally relevant); otherwise the
bare cosine similarity. -/
noncomputable def scoreRecord (query : List ℚ) (rec : EmbRecord)
    (archPaths : List String) (execWeights : List (String × ℚ))
    (now_ts : String) (useWeighted : Bool) : ℝ :=
  let semantic := cosine_similarity (toRealList query)
    (toRealList rec.embedding)
  if useWeighted then
    let recency := recency_weight rec.hash now_ts
    let exec_success : ℚ := (execWeights.lookup rec.file_path).getD (1/2)
    let arch_rel : ℝ := if rec.file_path ∈ archPaths then 1 else 0
    0.6 * semantic + 0.2 * recency + 0.1 * (exec_success : ℝ) +
      0.1 * arch_rel
  else semantic

/-- C2 counterexample: a candidate whose vector equals the query vector but
where both are the zero vector `[0.0]` (no execution history, no decision
mention, hash not timestamp-shaped) scores
`0.6·0 + 0.2·0.5 + 0.1·0.5 + 0.1·0 = 0.15`, not the claimed 0.75 — the
claim's "perfect semantic match" instance needs a nonzero-magnitude vector. -/
theorem claim2_counterexample :
    scoreRecord [(0 : ℚ)]
      ⟨"scripts/a.py", "sha256:aa", 0, 1, [(0 : ℚ)]⟩ [] [] "now" true
      = 0.15 ∧
    ¬ scoreRecord [(0 : ℚ)]
      ⟨"scripts/a.py", "sha256:aa", 0, 1, [(0 : ℚ)]⟩ [] [] "now" true
      = 0.75 := by
  have hcos : cosine_similarity (toRealList [(0 : ℚ)])
      (toRealList [(0 : ℚ)]) = 0 := by
    refine cosine_zero_mag _ _ (Or.inl ?_)
    intro x hx
    simpa [toRealList] using hx
  have hrec : recency_weight "sha256:aa" "now" = 0.5 := by
    unfold recency_weight
    rw [if_neg (by decide)]
  have h : scoreRecord [(0 : ℚ)]
      ⟨"scripts/a.py", "sha256:aa", 0, 1, [(0 : ℚ)]⟩ [] [] "now" true
      = 0.15 := by
    unfold scoreRecord
    simp only [if_true]
    rw [hcos, hrec]
    norm_num
  exact ⟨h, by rw [h]; norm_num⟩

/-- C2 (amended): every candidate scored by `top_k` with weighted scoring
gets `0.6·semantic + 0.2·recency + 0.1·exec_success + 0.1·arch_relevance`;
and a candidate whose vector equals the query vector — the query having
nonzero magnitude — with no execution history, no decision-log mention,
and a non-timestamp-shaped hash scores exactly 0.75. -/
theorem claim2_theorem :
    (∀ (query : List ℚ) (rec : EmbRecord) (archPaths : List String)
        (execWeights : List (String × ℚ)) (now_ts : String),
      scoreRecord query rec archPaths execWeights now_ts true =
        0.6 * cosine_similarity (toRealList query)
            (toRealList rec.embedding)
          + 0.2 * recency_weight rec.hash now_ts
          + 0.1 * (((execWeights.lookup rec.file_path).getD (1/2) : ℚ) : ℝ)
          + 0.1 * (if rec.file_path ∈ archPaths then (1 : ℝ) else 0)) ∧
    (∀ (query : List ℚ) (rec : EmbRecord) (archPaths : List String)
        (execWeights : List (String × ℚ)) (now_ts : String),
      rec.embedding = query → (∃ x ∈ query, x ≠ 0) →
      execWeights.lookup rec.file_path = none →
      rec.file_path ∉ archPaths →
      ¬ (rec.hash.length = 20 ∧ 'T' ∈ rec.hash.toList) →
      scoreRecord query rec archPaths execWeights now_ts true = 0.75) := by
  constructor
  · intro query rec archPaths execWeights now_ts
    unfold scoreRecord
    simp only [if_true]
  · intro query rec archPaths execWeights now_ts hemb hq hlk harch hts
    unfold scoreRecord
    simp only [if_true, hemb, hlk, Option.getD_none]
    have hcos : cosine_similarity (toRealList query)
        (toRealList query) = 1 := by
      refine cosine_self _ ?_
      obtain ⟨x, hx, hxne⟩ := hq
      exact ⟨(x : ℝ), mem_toRealList hx, by exact_mod_cast hxne⟩
    have hrec : recency_weight rec.hash now_ts = 0.5 := by
      unfold recency_weight
      rw [if_neg hts]
    rw [hcos, hrec, if_neg harch]
    norm_num

/-- C2 witness: the amended theorem applied at a concrete candidate. -/
theorem claim2_witness :
    scoreRecord [(1 : ℚ)] ⟨"scripts/a.py", "sha256:aa", 0, 1, [(1 : ℚ)]⟩
      [] [] "2026-01-02T00:00:00Z" true = 0.75 :=
  claim2_theorem.2 [(1 : ℚ)] ⟨"scripts/a.py", "sha256:aa", 0, 1, [(1 : ℚ)]⟩
    [] [] "2026-01-02T00:00:00Z" rfl ⟨1, by simp, by norm_num⟩ rfl
    (by simp) (by decide)

/-! ## scripts/embedding_engine.py — chunking and incremental embedding -/

/-- `SCHEMA_VERSION` from memory_schemas.py. -/
def SCHEMA_VERSION : String := "1.0"

/-- `EMBEDDING_MODEL_NAME` from memory_schemas.py. -/
def EMBEDDING_MODEL_NAME : String := "BAAI/bge-small-en-v1.5"

/-- `EMBEDDING_MODEL_VERSION` from memory_schemas.py. -/
def EMBEDDING_MODEL_VERSION : String := "0.1.0"

/-- `EMBEDDING_DIM` from memory_schemas.py. -/
def EMBEDDING_DIM : ℕ := 384

/-- `CHUNK_CHARS = CHUNK_SIZE * CHARS_PER_TOKEN = 512 * 4`. -/
def CHUNK_CHARS : ℕ := 512 * 4

/-- ASCII whitespace as stripped by Python `str.strip()`
(space, tab, newline, carriage return, vertical tab, form feed). -/
def pyIsSpace (c : Char) : Bool :=
  c.toNat = 32 ∨ c.toNat = 9 ∨ c.toNat = 10 ∨ c.toNat = 13 ∨
  c.toNat = 11 ∨ c.toNat = 12

/-- Python `str.strip()` on a character list. -/
def pyStrip (l : List Char) : List Char :=
  ((l.dropWhile pyIsSpace).reverse.dropWhile pyIsSpace).reverse

/-- Line-break characters recognised by Python `str.splitlines`. -/
def isLineBreak (c : Char) : Bool :=
  c.toNat = 10 ∨ c.toNat = 13 ∨ c.toNat = 11 ∨ c.toNat = 12 ∨
  c.toNat = 28 ∨ c.toNat = 29 ∨ c.toNat = 30 ∨ c.toNat = 133 ∨
  c.toNat = 8232 ∨ c.toNat = 8233

/-- Worker for `splitlines(keepends=True)`: accumulates the current line
(reversed) and cuts at each line boundary, treating CR LF as one break. -/
def splitKEgo : List Char → List Char → List (List Char)
  | [], acc => if acc = [] then [] else [acc.reverse]
  | [c], acc =>
    if c.toNat = 13 then [acc.reverse ++ [c]]
    else if isLineBreak c then [acc.reverse ++ [c]]
    else [(c :: acc).reverse]
  | c :: d :: rest, acc =>
    if c.toNat = 13 then
      if d.toNat = 10 then (acc.reverse ++ [c, d]) :: splitKEgo rest []
      else (acc.reverse ++ [c]) :: splitKEgo (d :: rest) []
    else if isLineBreak c then
      (acc.reverse ++ [c]) :: splitKEgo (d :: rest) []
    else splitKEgo (d :: rest) (c :: acc)

/-- Python `text.splitlines(keepends=True)` on a character list. -/
def splitKE (l : List Char) : List (List Char) := splitKEgo l []

/-- The chunk-accumulation loop of `_chunk_text`: consume lines, emit a
stripped chunk whenever the running length reaches the budget, keep the
last ~20% of the accumulated lines as overlap. Returns `(chunks, current)`
at loop exit. -/
def chunkLoop (chunk_chars : ℕ) :
    List (List Char) → List (List Char) → ℕ → List (List Char) →
    List (List Char) × List (List Char)
  | [], current, _, chunks => (chunks, current)
  | line :: rest, current, current_len, chunks =>
    let current2 := current ++ [line]
    let len2 := current_len + line.length
    if len2 ≥ chunk_chars then
      let chunkT := pyStrip current2.flatten
      let chunks2 := if chunkT = [] then chunks else chunks ++ [chunkT]
      let cutoff := current2.length - max 1 (current2.length / 5)
      let current3 := current2.drop cutoff
      chunkLoop chunk_chars rest current3
        (current3.map List.length).sum chunks2
    else chunkLoop chunk_chars rest current2 len2 chunks

/-- `_chunk_text(text, chunk_chars)` from scripts/embedding_engine.py. -/
def chunk_text (chunk_chars : ℕ) (text : String) : List String :=
  if pyStrip text.toList = [] then []
  else
    let p := chunkLoop chunk_chars (splitKE text.toList) [] 0 []
    let withRemainder :=
      if p.2 ≠ [] then
        let remainder := pyStrip p.2.flatten
        if remainder = [] then p.1 else p.1 ++ [remainder]
      else p.1
    let final :=
      if withRemainder = [] then [pyStrip text.toList] else withRemainder
    final.map fun l => String.mk l

/-- A candidate file as seen by `_embed_files`: its relative path, the
`_sha256_file` result, and its content (`none` models an unreadable file,
whose chunks are skipped). One hash field models both `_sha256_file`
calls, per the spec's stable-snapshot assumption. -/
structure SrcFile where
  rel_path : String
  hash : String
  content : Option String
deriving DecidableEq

/-- The `hash_lookup` built by `_load_existing_embeddings`: first
occurrence of each non-empty `file_path` maps to that record's hash. -/
def buildHashLookup (records : List EmbRecord) : List (String × String) :=
  records.foldl
    (fun acc rec =>
      if rec.file_path ≠ "" ∧ acc.lookup rec.file_path = none then
        acc ++ [(rec.file_path, rec.hash)]
      else acc) []

/-- The skip decision of the selection loop in `_embed_files`: skip when
in changed-files mode the path is unlisted but already embedded, or when
the recorded hash matches the current hash. -/
def skipFile (existing_hashes : List (String × String))
    (changed_only : List String) (f : SrcFile) : Bool :=
  (changed_only ≠ [] ∧ f.rel_path ∉ changed_only ∧
    (existing_hashes.lookup f.rel_path).isSome) ∨
  existing_hashes.lookup f.rel_path = some f.hash

/-- The records generated for one file in the embed loop of
`_embed_files`: chunk the content, encode each chunk with the injected
model (failures and wrong-dimension vectors are skipped per chunk). -/
def genRecords (encode : String → Option (List ℚ)) (f : SrcFile) :
    List EmbRecord :=
  match f.content with
  | none => []
  | some content =>
    let chunks := chunk_text CHUNK_CHARS content
    chunks.enum.filterMap fun ic =>
      match encode ic.2 with
      | none => none
      | some vec =>
        if vec.length = EMBEDDING_DIM then
          some ⟨f.rel_path, f.hash, ic.1, chunks.length, vec⟩
        else none

/-- `_embed_files` from scripts/embedding_engine.py: select files to embed,
return the existing records untouched when nothing is selected, else drop
the stale records of the selected paths and append freshly generated ones. -/
def embedFiles (encode : String → Option (List ℚ)) (files : List SrcFile)
    (existing_hashes : List (String × String))
    (existing_records : List EmbRecord) (changed_only : List String) :
    List EmbRecord :=
  let to_embed := files.filter fun f => !skipFile existing_hashes changed_only f
  if to_embed = [] then existing_records
  else
    let re_embed_paths := to_embed.map SrcFile.rel_path
    let updated := existing_records.filter
      fun r => !re_embed_paths.contains r.file_path
    updated ++ to_embed.flatMap (genRecords encode)

/-- The JSON envelope written by `_write_embedding_file`. -/
structure EmbEnvelope where
  schema_version : String
  model_name : String
  model_version : String
  generated_at : String
  embeddings : List EmbRecord
deriving DecidableEq

/-- `validate_embeddings` from memory_schemas.py on a typed envelope:
schema version and model tags must match, every record nonempty and of
dimension `EMBEDDING_DIM` (key presence holds by typing). -/
def validateEmbeddings (env : EmbEnvelope) : Bool :=
  env.schema_version = SCHEMA_VERSION ∧
  env.model_name = EMBEDDING_MODEL_NAME ∧
  env.model_version = EMBEDDING_MODEL_VERSION ∧
  env.embeddings.all fun e =>
    e.embedding ≠ [] ∧ e.embedding.length = EMBEDDING_DIM

/-- `_write_embedding_file(records)`: build the envelope with the current
timestamp and write it iff it validates (`none` models the sys.exit(1)
path, where no file is produced). -/
def write_embedding_file (records : List EmbRecord) (generated_at : String) :
    Option EmbEnvelope :=
  let env : EmbEnvelope :=
    ⟨SCHEMA_VERSION, EMBEDDING_MODEL_NAME, EMBEDDING_MODEL_VERSION,
     generated_at, records⟩
  if validateEmbeddings env then some env else none

lemma filter_eq_nil_of_none (l : List α) (p : α → Bool)
    (h : ∀ a ∈ l, p a = false) : l.filter p = [] := by
  induction l with
  | nil => rfl
  | cons a t ih =>
      rw [List.filter_cons, h a (List.mem_cons_self a t)]
      exact ih fun b hb => h b (List.mem_cons_of_mem a hb)

lemma filter_filter_of_imp (l : List α) (p q : α → Bool)
    (h : ∀ a, p a = true → q a = true) :
    (l.filter q).filter p = l.filter p := by
  induction l with
  | nil => rfl
  | cons a t ih =>
      cases hq : q a with
      | true => simp [List.filter_cons, hq, ih]
      | false =>
          have hp : p a = false := by
            cases hpa : p a with
            | true => exact absurd (h a hpa) (by simp [hq])
            | false => rfl
          simp [List.filter_cons, hq, hp, ih]

lemma genRecords_path (encode : String → Option (List ℚ)) (f : SrcFile)
    (r : EmbRecord) (hr : r ∈ genRecords encode f) :
    r.file_path = f.rel_path := by
  obtain ⟨rp, rh, rc⟩ := f
  cases rc with
  | none => simp [genRecords] at hr
  | some content =>
      simp only [genRecords] at hr
      rw [List.mem_filterMap] at hr
      obtain ⟨ic, _, hic⟩ := hr
      cases hv : encode ic.2 with
      | none => rw [hv] at hic; exact absurd hic (by simp)
      | some vec =>
          rw [hv] at hic
          simp only [Option.ite_none_right_eq_some, Option.some.injEq] at hic
          rw [← hic.2]

/-- The file-level frame property of `_embed_files`: a file of the scan
set that the selection loop skips keeps exactly its existing records in
the output (given distinct relative paths in the scan set). -/
lemma embedFiles_frame (encode : String → Option (List ℚ))
    (files : List SrcFile) (eh : List (String × String))
    (records : List EmbRecord) (changed_only : List String) (f : SrcFile)
    (hf : f ∈ files) (hskip : skipFile eh changed_only f = true)
    (hnd : (files.map SrcFile.rel_path).Nodup) :
    (embedFiles encode files eh records changed_only).filter
        (fun r => r.file_path == f.rel_path)
      = records.filter (fun r => r.file_path == f.rel_path) := by
  have hinj := List.inj_on_of_nodup_map hnd
  have hne : ∀ g ∈ files.filter (fun g => !skipFile eh changed_only g),
      g.rel_path ≠ f.rel_path := by
    intro g hg
    have hgf := List.mem_filter.mp hg
    intro heq
    have : g = f := hinj hgf.1 hf heq
    rw [this] at hgf
    rw [hskip] at hgf
    simp at hgf
  unfold embedFiles
  by_cases hte : files.filter (fun g => !skipFile eh changed_only g) = []
  · rw [if_pos hte]
  · rw [if_neg hte]
    rw [List.filter_append]
    have h1 : ((files.filter (fun g => !skipFile eh changed_only g)).flatMap
        (genRecords encode)).filter (fun r => r.file_path == f.rel_path)
        = [] := by
      refine filter_eq_nil_of_none _ _ ?_
      intro r hr
      obtain ⟨g, hg, hrg⟩ := List.mem_flatMap.mp hr
      have := genRecords_path encode g r hrg
      rw [this]
      exact beq_eq_false_iff_ne.mpr (hne g hg)
    rw [h1, List.append_nil]
    refine filter_filter_of_imp records _ _ ?_
    intro r hpr
    have hrp : r.file_path = f.rel_path := by
      exact beq_iff_eq.mp hpr
    rw [Bool.not_eq_true']
    rw [List.contains_eq_any_beq]
    rw [Bool.eq_false_iff]
    intro hany
    obtain ⟨y, hy, hbeq⟩ := List.any_eq_true.mp hany
    obtain ⟨g, hg, rfl⟩ := List.mem_map.mp hy
    have : g.rel_path = r.file_path := (beq_iff_eq.mp hbeq).symm
    exact hne g hg (this.trans hrp)

/-- C10: in changed-files mode, an already-embedded file whose path is not
in the changed set is skipped by `_embed_files` — its existing records
survive to the output unchanged even if its current hash is stale. -/
theorem claim10_theorem :
    ∀ (encode : String → Option (List ℚ)) (files : List SrcFile)
      (records : List EmbRecord) (changed_only : List String) (f : SrcFile),
      f ∈ files → changed_only ≠ [] → f.rel_path ∉ changed_only →
      ((buildHashLookup records).lookup f.rel_path).isSome = true →
      (files.map SrcFile.rel_path).Nodup →
      ((embedFiles encode files (buildHashLookup records) records
          changed_only).filter (fun r => r.file_path == f.rel_path)
        = records.filter (fun r => r.file_path == f.rel_path)) ∧
      f ∉ files.filter
        (fun g => !skipFile (buildHashLookup records) changed_only g) := by
  intro encode files records changed_only f hf hch hnc hsome hnd
  have hskip : skipFile (buildHashLookup records) changed_only f = true := by
    unfold skipFile
    rw [decide_eq_true_iff]
    exact Or.inl ⟨hch, hnc, hsome⟩
  refine ⟨embedFiles_frame encode files _ records changed_only f hf hskip hnd,
    ?_⟩
  intro hmem
  have := (List.mem_filter.mp hmem).2
  rw [hskip] at this
  simp at this

/-- A concrete injected embedding model that returns the zero vector of
the expected dimension for every chunk. -/
def encodeZero : String → Option (List ℚ) :=
  fun _ => some (List.replicate EMBEDDING_DIM 0)

/-- C10 witness: the theorem applied to a two-file scan in changed-files
mode — `a.py` has a stale hash but is not listed, so its record survives. -/
theorem claim10_witness :
    ((embedFiles encodeZero
        [⟨"a.py", "sha256:new", some "x = 1\n"⟩,
         ⟨"b.py", "sha256:bb", some "y = 2\n"⟩]
        (buildHashLookup [⟨"a.py", "sha256:old", 0, 1,
          List.replicate EMBEDDING_DIM 0⟩])
        [⟨"a.py", "sha256:old", 0, 1, List.replicate EMBEDDING_DIM 0⟩]
        ["b.py"]).filter (fun r => r.file_path == "a.py")
      = [⟨"a.py", "sha256:old", 0, 1, List.replicate EMBEDDING_DIM 0⟩]) := by
  have h := claim10_theorem encodeZero
    [⟨"a.py", "sha256:new", some "x = 1\n"⟩,
     ⟨"b.py", "sha256:bb", some "y = 2\n"⟩]
    [⟨"a.py", "sha256:old", 0, 1, List.replicate EMBEDDING_DIM 0⟩]
    ["b.py"] ⟨"a.py", "sha256:new", some "x = 1\n"⟩
    (by simp) (by simp) (by decide) (by decide) (by decide)
  have h1 := h.1
  rw [h1]
  decide

/-- The fixpoint property behind the idempotence scenario: when every
candidate file's recorded hash (from the loaded archive) equals its
current hash, `_embed_files` selects nothing and returns the archive
records exactly. -/
lemma embedFiles_fixpoint (encode : String → Option (List ℚ))
    (files : List SrcFile) (records : List EmbRecord)
    (changed_only : List String)
    (h : ∀ f ∈ files,
      (buildHashLookup records).lookup f.rel_path = some f.hash) :
    embedFiles encode files (buildHashLookup records) records changed_only
      = records := by
  unfold embedFiles
  have hte : files.filter
      (fun g => !skipFile (buildHashLookup records) changed_only g) = [] := by
    refine filter_eq_nil_of_none _ _ ?_
    intro f hf
    have hskip : skipFile (buildHashLookup records) changed_only f = true := by
      unfold skipFile
      rw [decide_eq_true_iff]
      exact Or.inr (h f hf)
    rw [hskip]
    rfl
  rw [hte]
  rfl

/-- Concrete scenario for C3: one source file, embedded from scratch in
run 1, then re-run unchanged. -/
def filesC3 : List SrcFile := [⟨"a.py", "sha256:aaaa", some "print(1)\n"⟩]

/-- Run 1 of the C3 scenario (empty archive, full mode). -/
def run1C3 : List EmbRecord := embedFiles encodeZero filesC3 [] [] []

/-- Run 2 of the C3 scenario: same files and model, archive from run 1. -/
def run2C3 : List EmbRecord :=
  embedFiles encodeZero filesC3 (buildHashLookup run1C3) run1C3 []

/-- C3 counterexample: two runs with no content changes produce the same
records but NOT identical output files — `_write_embedding_file` stamps
each envelope with the run's `generated_at` time, so the two files differ. -/
theorem claim3_counterexample :
    run2C3 = run1C3 ∧
    write_embedding_file run1C3 "2026-01-01T00:00:00Z" ≠
      write_embedding_file run2C3 "2026-01-01T00:00:05Z" := by
  constructor
  · decide
  · decide

/-- C3 (amended): with no content changes (every candidate file's current
hash equals the hash recorded for it in the loaded archive), a second
embedding run reproduces the archive records byte-identically; the two
written envelope files agree on schema version, model tags and the full
embeddings list, differing only in `generated_at`. -/
theorem claim3_theorem :
    (∀ (encode : String → Option (List ℚ)) (files : List SrcFile)
        (records : List EmbRecord) (changed_only : List String),
      (∀ f ∈ files,
        (buildHashLookup records).lookup f.rel_path = some f.hash) →
      embedFiles encode files (buildHashLookup records) records changed_only
        = records) ∧
    (∀ (records : List EmbRecord) (t1 t2 : String)
        (env1 env2 : EmbEnvelope),
      write_embedding_file records t1 = some env1 →
      write_embedding_file records t2 = some env2 →
      env1.embeddings = env2.embeddings ∧
      env1.schema_version = env2.schema_version ∧
      env1.model_name = env2.model_name ∧
      env1.model_version = env2.model_version) := by
  constructor
  · exact embedFiles_fixpoint
  · intro records t1 t2 env1 env2 h1 h2
    unfold write_embedding_file at h1 h2
    by_cases hv : validateEmbeddings
        ⟨SCHEMA_VERSION, EMBEDDING_MODEL_NAME, EMBEDDING_MODEL_VERSION,
         t1, records⟩ = true
    · have hv2 : validateEmbeddings
          ⟨SCHEMA_VERSION, EMBEDDING_MODEL_NAME, EMBEDDING_MODEL_VERSION,
           t2, records⟩ = true := by
        unfold validateEmbeddings at hv ⊢
        exact hv
      rw [if_pos hv] at h1
      rw [if_pos hv2] at h2
      cases h1
      cases h2
      exact ⟨rfl, rfl, rfl, rfl⟩
    · rw [if_neg hv] at h1
      cases h1

/-- C3 witness: the amended theorem applied to the concrete scenario. -/
theorem claim3_witness :
    embedFiles encodeZero filesC3 (buildHashLookup run1C3) run1C3 []
      = run1C3 ∧
    (write_embedding_file run1C3 "2026-01-01T00:00:00Z").map
        EmbEnvelope.embeddings
      = (write_embedding_file run1C3 "2026-01-01T00:00:05Z").map
        EmbEnvelope.embeddings := by
  constructor
  · exact claim3_theorem.1 encodeZero filesC3 run1C3 [] (by decide)
  · have h := claim3_theorem.2 run1C3 "2026-01-01T00:00:00Z"
      "2026-01-01T00:00:05Z"
      ⟨SCHEMA_VERSION, EMBEDDING_MODEL_NAME, EMBEDDING_MODEL_VERSION,
       "2026-01-01T00:00:00Z", run1C3⟩
      ⟨SCHEMA_VERSION, EMBEDDING_MODEL_NAME, EMBEDDING_MODEL_VERSION,
       "2026-01-01T00:00:05Z", run1C3⟩
      (by decide) (by decide)
    rw [show write_embedding_file run1C3 "2026-01-01T00:00:00Z"
        = some ⟨SCHEMA_VERSION, EMBEDDING_MODEL_NAME,
            EMBEDDING_MODEL_VERSION, "2026-01-01T00:00:00Z", run1C3⟩
      by decide]
    rw [show write_embedding_file run1C3 "2026-01-01T00:00:05Z"
        = some ⟨SCHEMA_VERSION, EMBEDDING_MODEL_NAME,
            EMBEDDING_MODEL_VERSION, "2026-01-01T00:00:05Z", run1C3⟩
      by decide]
    simp [h.1]

/-! ## scripts/execution_logger.py — bounded append-only execution log -/

/-- `MAX_RUNS_IN_LOG = 1000`. -/
def MAX_RUNS_IN_LOG : ℕ := 1000

/-- `VALID_AGENTS` from scripts/execution_logger.py (also the agent enum
of memory_schemas.validate_execution_log). -/
def VALID_AGENTS : List String :=
  ["Alpha", "Beta", "Delta", "Gamma",
   "ai_issue_solver", "ai_test_engineer", "ai_duplicate_detector"]

/-- `VALID_OUTCOMES`. -/
def VALID_OUTCOMES : List String := ["success", "failure", "partial", "skipped"]

/-- `VALID_ACTIONS`. -/
def VALID_ACTIONS : List String :=
  ["label_added", "label_removed", "label_swap",
   "comment_posted", "pr_opened", "pr_merged",
   "branch_created", "code_committed",
   "issue_closed", "issue_assigned",
   "duplicate_marked", "no_op"]

/-- `VALID_CI_STATUSES` (includes Python `None`). -/
def VALID_CI_STATUSES : List (Option String) :=
  [some "green", some "red", some "skipped", none]

/-- `VALID_EVENT_TYPES`. -/
def VALID_EVENT_TYPES : List String :=
  ["issue_labeled", "pr_opened", "pr_merged", "schedule", "workflow_dispatch"]

/-- Python `s.startswith(pre)` (by code points). -/
def pyStartsWith (s pre : String) : Bool := pre.data.isPrefixOf s.data

/-- Python slice `s[:n]` (by code points). -/
def pyTake (s : String) (n : ℕ) : String := String.mk (s.data.take n)

/-- The `ExecutionRecord` dataclass (confidence as an exact decimal). -/
structure ExecutionRecord where
  agent : String
  trigger_event : String
  trigger_source : String
  input_hash : String
  retrieved_context_ids : List String
  decision_summary : String
  actions_taken : List String
  outcome : String
  failure_reason : String := ""
  ci_status : Option String := none
  duration_ms : ℕ := 0
  confidence : ℚ := 0
  retry_count : ℕ := 0
  context_retrieval_ms : ℕ := 0
deriving DecidableEq

/-- `ExecutionRecord.validate()`: `true` iff no ValueError is raised
(enum membership, confidence range, hash prefix, summary length; the
missing-failure-reason case only logs a warning and does not raise). -/
def ExecutionRecord.validateOk (r : ExecutionRecord) : Bool :=
  r.agent ∈ VALID_AGENTS ∧
  r.trigger_event ∈ VALID_EVENT_TYPES ∧
  r.outcome ∈ VALID_OUTCOMES ∧
  (∀ a ∈ r.actions_taken, a ∈ VALID_ACTIONS) ∧
  r.ci_status ∈ VALID_CI_STATUSES ∧
  (0 ≤ r.confidence ∧ r.confidence ≤ 1) ∧
  pyStartsWith r.input_hash "sha256:" ∧
  r.decision_summary.length ≤ 500

/-- The nested `trigger` object of a serialized run record. -/
structure Trigger where
  event_type : String
  source_ref : String
deriving DecidableEq

/-- A serialized run record, as produced by `to_json_record` and stored
in the `runs` list of execution_log.json. -/
structure RunRecord where
  run_id : String
  agent : String
  trigger : Trigger
  input_hash : String
  retrieved_context_ids : List String
  decision_summary : String
  actions_taken : List String
  outcome : String
  ci_status : Option String
  duration_ms : ℕ
  confidence : ℚ
  retry_count : ℕ
  context_retrieval_ms : ℕ
  timestamp : String
  failure_reason : Option String
deriving DecidableEq

/-- Round half to even at the fourth decimal, modelling Python's
`round(x, 4)` (exactly on the decimal value; binary-float artifacts of
CPython's rounding are outside the real-number model). Written with
integer arithmetic on the exact fraction: `f = ⌊x·10000⌋`, remainder
`r/den` the fractional part, half-to-even at `2r = den`. -/
def round4 (x : ℚ) : ℚ :=
  let n10 : ℤ := x.num * 10000
  let den : ℤ := (x.den : ℤ)
  let f : ℤ := Int.fdiv n10 den
  let r : ℤ := n10 - f * den
  let n : ℤ :=
    if 2 * r < den then f
    else if den < 2 * r then f + 1
    else if f % 2 = 0 then f else f + 1
  mkRat n 10000

/-- `ExecutionRecord.to_json_record(run_id, timestamp)`: caps the context
id list at 50 and the summary at 500 chars, rounds confidence to 4
decimals, and includes `failure_reason` (capped at 300) only when
non-empty. -/
def ExecutionRecord.to_json_record (r : ExecutionRecord)
    (run_id timestamp : String) : RunRecord :=
  { run_id := run_id
    agent := r.agent
    trigger := ⟨r.trigger_event, r.trigger_source⟩
    input_hash := r.input_hash
    retrieved_context_ids := r.retrieved_context_ids.take 50
    decision_summary := pyTake r.decision_summary 500
    actions_taken := r.actions_taken
    outcome := r.outcome
    ci_status := r.ci_status
    duration_ms := r.duration_ms
    confidence := round4 r.confidence
    retry_count := r.retry_count
    context_retrieval_ms := r.context_retrieval_ms
    timestamp := timestamp
    failure_reason :=
      if r.failure_reason ≠ "" then some (pyTake r.failure_reason 300)
      else none }

/-- The per-run checks of `memory_schemas.validate_execution_log`
(key presence holds by typing). -/
def validRunRecord (run : RunRecord) : Bool :=
  run.agent ∈ VALID_AGENTS ∧
  run.outcome ∈ VALID_OUTCOMES ∧
  (∀ a ∈ run.actions_taken, a ∈ VALID_ACTIONS) ∧
  (run.ci_status = none ∨
    run.ci_status ∈ [some "green", some "red", some "skipped"]) ∧
  (0 ≤ run.confidence ∧ run.confidence ≤ 1) ∧
  pyStartsWith run.input_hash "sha256:"

/-- `memory_schemas.validate_execution_log` on a typed envelope. -/
def validate_execution_log (schema_version : String)
    (runs : List RunRecord) : Bool :=
  schema_version = SCHEMA_VERSION ∧ runs.all validRunRecord

/-- `log_execution(record)` from scripts/execution_logger.py: validate,
prepend the serialized record to the loaded runs, truncate to the cap,
validate the envelope, and write. `some runs` is the successful write of
exactly those runs (return True); `none` is the False path, where the
log file is not touched. The ambient `run_id`/`timestamp` come from
`make_run_id` (wall clock, external input here); an OS-level write
failure, also returning False, is environment nondeterminism outside
this model. -/
def log_execution (record : ExecutionRecord)
    (existing_runs : List RunRecord) (run_id timestamp : String) :
    Option (List RunRecord) :=
  if !record.validateOk then none
  else
    let json_record := record.to_json_record run_id timestamp
    let updated := json_record :: existing_runs
    let updated2 :=
      if updated.length > MAX_RUNS_IN_LOG then updated.take MAX_RUNS_IN_LOG
      else updated
    if validate_execution_log SCHEMA_VERSION updated2 then some updated2
    else none

/-- C4: after every successful `log_execution`, the stored runs list has
length at most `MAX_RUNS_IN_LOG` (oldest evicted from the tail) and the
new record sits at index 0 (newest first). -/
theorem claim4_theorem :
    ∀ (record : ExecutionRecord) (existing_runs : List RunRecord)
      (run_id timestamp : String) (out : List RunRecord),
      log_execution record existing_runs run_id timestamp = some out →
      out.length ≤ MAX_RUNS_IN_LOG ∧
      out.head? = some (record.to_json_record run_id timestamp) := by
  intro record existing_runs run_id timestamp out h
  unfold log_execution at h
  by_cases hv : record.validateOk
  · rw [hv] at h
    simp only [Bool.not_true, Bool.false_eq_true, if_false] at h
    by_cases hval : validate_execution_log SCHEMA_VERSION
        (if (record.to_json_record run_id timestamp :: existing_runs).length
            > MAX_RUNS_IN_LOG
         then (record.to_json_record run_id timestamp ::
            existing_runs).take MAX_RUNS_IN_LOG
         else record.to_json_record run_id timestamp :: existing_runs) = true
    · rw [if_pos hval] at h
      cases h
      by_cases hlen : (record.to_json_record run_id timestamp ::
          existing_runs).length > MAX_RUNS_IN_LOG
      · rw [if_pos hlen]
        constructor
        · exact le_trans (List.length_take_le _ _) (le_refl _)
        · rw [show MAX_RUNS_IN_LOG = 999 + 1 from rfl, List.take_succ_cons]
          rfl
      · rw [if_neg hlen]
        exact ⟨Nat.not_lt.mp hlen, rfl⟩
    · rw [if_neg hval] at h
      cases h
  · rw [Bool.not_eq_true] at hv
    rw [hv] at h
    cases h

/-- A concrete valid execution record for the C4 witness. -/
def recC4 : ExecutionRecord :=
  { agent := "Delta"
    trigger_event := "issue_labeled"
    trigger_source := "issue/42"
    input_hash := "sha256:abcd"
    retrieved_context_ids := ["file:scripts/gh_utils.py"]
    decision_summary := "applied label swap"
    actions_taken := ["label_swap", "pr_opened"]
    outcome := "success"
    ci_status := some "green"
    confidence := mkRat 88 100 }

/-- C4 witness: the theorem applied to a concrete successful call on an
empty log. -/
theorem claim4_witness :
    [recC4.to_json_record "delta-2026-01-01T00:00:00Z"
        "2026-01-01T00:00:00Z"].length ≤ MAX_RUNS_IN_LOG ∧
    [recC4.to_json_record "delta-2026-01-01T00:00:00Z"
        "2026-01-01T00:00:00Z"].head?
      = some (recC4.to_json_record "delta-2026-01-01T00:00:00Z"
        "2026-01-01T00:00:00Z") :=
  claim4_theorem recC4 [] "delta-2026-01-01T00:00:00Z"
    "2026-01-01T00:00:00Z" _ (by decide)

/-- C8: a record violating any schema constraint — agent, trigger event,
outcome, action, or ci_status outside its enum; confidence outside
[0, 1]; input_hash not prefixed "sha256:"; decision_summary over 500
characters — is rejected by `log_execution`: it returns the False path
(`none`), which never coerces values and leaves the log file untouched. -/
theorem claim8_theorem :
    ∀ (record : ExecutionRecord) (existing_runs : List RunRecord)
      (run_id timestamp : String),
      (record.agent ∉ VALID_AGENTS ∨
       record.trigger_event ∉ VALID_EVENT_TYPES ∨
       record.outcome ∉ VALID_OUTCOMES ∨
       (∃ a ∈ record.actions_taken, a ∉ VALID_ACTIONS) ∨
       record.ci_status ∉ VALID_CI_STATUSES ∨
       record.confidence < 0 ∨ 1 < record.confidence ∨
       ¬ pyStartsWith record.input_hash "sha256:" ∨
       500 < record.decision_summary.length) →
      log_execution record existing_runs run_id timestamp = none := by
  intro record existing_runs run_id timestamp h
  have hv : record.validateOk = false := by
    unfold ExecutionRecord.validateOk
    rw [decide_eq_false_iff_not]
    intro hP
    obtain ⟨h1, h2, h3, h4, h5, h6, h7, h8⟩ := hP
    rcases h with h | h | h | ⟨a, ha, hna⟩ | h | h | h | h | h
    · exact h h1
    · exact h h2
    · exact h h3
    · exact hna (h4 a ha)
    · exact h h5
    · exact absurd h6.1 (not_le.mpr h)
    · exact absurd h6.2 (not_le.mpr h)
    · exact h h7
    · exact absurd h8 (not_le.mpr h)
  unfold log_execution
  rw [hv]
  rfl

/-- C8 witness: the theorem applied to a record with an unknown agent. -/
theorem claim8_witness :
    log_execution
      { agent := "Zeta", trigger_event := "issue_labeled",
        trigger_source := "issue/1", input_hash := "sha256:ab",
        retrieved_context_ids := [], decision_summary := "s",
        actions_taken := [], outcome := "success" }
      [] "zeta-t" "2026-01-01T00:00:00Z" = none :=
  claim8_theorem _ [] "zeta-t" "2026-01-01T00:00:00Z"
    (Or.inl (by decide))

/-! ## SHA-256 (FIPS 180-4), byte-level over ℕ with explicit mod 2^32 —
the `hashlib.sha256` dependency of `_decision_id` in
scripts/decision_extractor.py. -/

/-- Reduce to a 32-bit word. -/
def w32 (n : ℕ) : ℕ := n % 4294967296

/-- 32-bit right rotation. -/
def rotr (n k : ℕ) : ℕ := w32 ((n >>> k) ||| (n <<< (32 - k)))

/-- SHA-256 Ch function. -/
def chF (x y z : ℕ) : ℕ := (x &&& y) ^^^ ((x ^^^ 4294967295) &&& z)

/-- SHA-256 Maj function. -/
def majF (x y z : ℕ) : ℕ := (x &&& y) ^^^ (x &&& z) ^^^ (y &&& z)

/-- SHA-256 big sigma 0. -/
def bsig0 (x : ℕ) : ℕ := rotr x 2 ^^^ rotr x 13 ^^^ rotr x 22

/-- SHA-256 big sigma 1. -/
def bsig1 (x : ℕ) : ℕ := rotr x 6 ^^^ rotr x 11 ^^^ rotr x 25

/-- SHA-256 small sigma 0. -/
def ssig0 (x : ℕ) : ℕ := rotr x 7 ^^^ rotr x 18 ^^^ (x >>> 3)

/-- SHA-256 small sigma 1. -/
def ssig1 (x : ℕ) : ℕ := rotr x 17 ^^^ rotr x 19 ^^^ (x >>> 10)

/-- The 64 SHA-256 round constants. -/
def K256 : List ℕ :=
  [1116352408, 1899447441, 3049323471,
   3921009573, 961987163, 1508970993,
   2453635748, 2870763221, 3624381080,
   310598401, 607225278, 1426881987,
   1925078388, 2162078206, 2614888103,
   3248222580, 3835390401, 4022224774,
   264347078, 604807628, 770255983,
   1249150122, 1555081692, 1996064986,
   2554220882, 2821834349, 2952996808,
   3210313671, 3336571891, 3584528711,
   113926993, 338241895, 666307205,
   773529912, 1294757372, 1396182291,
   1695183700, 1986661051, 2177026350,
   2456956037, 2730485921, 2820302411,
   3259730800, 3345764771, 3516065817,
   3600352804, 4094571909, 275423344,
   430227734, 506948616, 659060556,
   883997877, 958139571, 1322822218,
   1537002063, 1747873779, 1955562222,
   2024104815, 2227730452, 2361852424,
   2428436474, 2756734187, 3204031479,
   3329325298]

/-- The SHA-256 initial hash value. -/
def H0256 : List ℕ :=
  [1779033703, 3144134277, 1013904242,
   2773480762, 1359893119, 2600822924,
   528734635, 1541459225]

/-- Extend 16 message-schedule words to 64. -/
def extendW (w : List ℕ) : List ℕ :=
  (List.range 48).foldl
    (fun acc _ =>
      acc ++ [w32 (ssig1 (acc.getD (acc.length - 2) 0) +
        acc.getD (acc.length - 7) 0 +
        ssig0 (acc.getD (acc.length - 15) 0) +
        acc.getD (acc.length - 16) 0)]) w

/-- One SHA-256 round on the working state `[a,b,c,d,e,f,g,h]`. -/
def compressStep (k w : ℕ) (s : List ℕ) : List ℕ :=
  match s with
  | [a, b, c, d, e, f, g, h] =>
    let t1 := w32 (h + bsig1 e + chF e f g + k + w)
    let t2 := w32 (bsig0 a + majF a b c)
    [w32 (t1 + t2), a, b, c, w32 (d + t1), e, f, g]
  | other => other

/-- Process one 16-word block. -/
def compressBlock (h : List ℕ) (block : List ℕ) : List ℕ :=
  let w := extendW block
  let s := (K256.zip w).foldl (fun st kw => compressStep kw.1 kw.2 st) h
  List.zipWith (fun x y => w32 (x + y)) h s

/-- Fuel-driven worker for `chunkList` (structural recursion so that the
kernel can evaluate it; fuel = list length always suffices for `n > 0`). -/
def chunkListGo (n : ℕ) : ℕ → List α → List (List α)
  | _, [] => []
  | 0, _ :: _ => []
  | fuel + 1, x :: xs => (x :: xs).take n :: chunkListGo n fuel ((x :: xs).drop n)

/-- Split a list into chunks of `n` (the final chunk may be shorter). -/
def chunkList (n : ℕ) (l : List α) : List (List α) := chunkListGo n l.length l

/-- SHA-256 padding: append 0x80, zeros to 56 mod 64, and the 64-bit
big-endian bit length. -/
def padBytes (msg : List ℕ) : List ℕ :=
  let bitLen := 8 * msg.length
  let padZeros := (119 - msg.length % 64) % 64
  msg ++ [0x80] ++ List.replicate padZeros 0 ++
    ((List.range 8).map fun i => (bitLen >>> (8 * (7 - i))) % 256)

/-- Big-endian bytes to 32-bit words. -/
def bytesToWords (b : List ℕ) : List ℕ :=
  (chunkList 4 b).map fun c =>
    c.foldl (fun acc x => acc * 256 + x) 0

/-- The eight 32-bit words of the SHA-256 digest of a byte string. -/
def sha256Words (msg : List ℕ) : List ℕ :=
  (chunkList 64 (padBytes msg)).foldl
    (fun h block => compressBlock h (bytesToWords block)) H0256

/-- The 32 digest bytes. -/
def sha256Bytes (msg : List ℕ) : List ℕ :=
  (sha256Words msg).flatMap fun w =>
    [(w >>> 24) % 256, (w >>> 16) % 256, (w >>> 8) % 256, w % 256]

/-- Lowercase hex character of a value below 16. -/
def hexChar (n : ℕ) : Char :=
  if n < 10 then Char.ofNat (48 + n) else Char.ofNat (87 + n)

/-- `hashlib.sha256(bytes).hexdigest()`. -/
def hexDigest (msg : List ℕ) : String :=
  String.mk ((sha256Bytes msg).flatMap fun b => [hexChar (b / 16), hexChar (b % 16)])

/-- UTF-8 encoding of one character (`str.encode()`). -/
def utf8Bytes (c : Char) : List ℕ :=
  let n := c.toNat
  if n < 128 then [n]
  else if n < 2048 then [192 ||| (n >>> 6), 128 ||| (n &&& 63)]
  else if n < 65536 then
    [224 ||| (n >>> 12), 128 ||| ((n >>> 6) &&& 63), 128 ||| (n &&& 63)]
  else
    [240 ||| (n >>> 18), 128 ||| ((n >>> 12) &&& 63),
     128 ||| ((n >>> 6) &&& 63), 128 ||| (n &&& 63)]

/-- `str.encode()` — the UTF-8 bytes of a string. -/
def strBytes (s : String) : List ℕ := s.data.flatMap utf8Bytes

/-- Sanity check against the FIPS "abc" test vector. -/
lemma sha256_abc :
    hexDigest (strBytes "abc") =
      "ba7816bf8f01cfea414140de5dae2223b00361a396177a9cb410ff61f20015ad" := by
  decide

/-- ASCII uppercase of one character (`str.upper()` on hex digits). -/
def asciiUpper (c : Char) : Char :=
  if 97 ≤ c.toNat ∧ c.toNat ≤ 122 then Char.ofNat (c.toNat - 32) else c

/-- The 8-hex-character uppercased hash component of `_decision_id`:
`hashlib.sha256(raw.encode()).hexdigest()[:8].upper()` where
`raw = f"{tag_type}:{source}:{index}"`. -/
def hash8 (tag_type source : String) (index : ℕ) : String :=
  String.mk
    (((hexDigest (strBytes
      (tag_type ++ ":" ++ source ++ ":" ++ toString index))).data.take 8).map
      asciiUpper)

/-- The prefix map of `_decision_id` (dict `.get` default "DEC"). -/
def pfxOf (tag_type : String) : String :=
  if tag_type = "ARCH_DECISION" then "ARCH"
  else if tag_type = "SECURITY_BOUNDARY" then "SEC"
  else if tag_type = "PERFORMANCE_CONSTRAINT" then "PERF"
  else if tag_type = "PR_DECISION" then "PR"
  else if tag_type = "ADR" then "ADR"
  else "DEC"

/-- `_decision_id(tag_type, source, index)` from
scripts/decision_extractor.py. -/
def decision_id (tag_type source : String) (index : ℕ) : String :=
  pfxOf tag_type ++ "-" ++ hash8 tag_type source index

lemma compressStep_length (k w : ℕ) (s : List ℕ) (h : s.length = 8) :
    (compressStep k w s).length = 8 := by
  unfold compressStep
  split
  · rfl
  · exact h

lemma foldl_compressStep_length (l : List (ℕ × ℕ)) (s : List ℕ)
    (h : s.length = 8) :
    (l.foldl (fun st kw => compressStep kw.1 kw.2 st) s).length = 8 := by
  induction l generalizing s with
  | nil => exact h
  | cons kw t ih => exact ih _ (compressStep_length kw.1 kw.2 s h)

lemma compressBlock_length (h b : List ℕ) (hh : h.length = 8) :
    (compressBlock h b).length = 8 := by
  unfold compressBlock
  rw [List.length_zipWith, hh, foldl_compressStep_length _ _ hh]
  rfl

lemma sha256Words_length (msg : List ℕ) : (sha256Words msg).length = 8 := by
  unfold sha256Words
  have hgen : ∀ (blocks : List (List ℕ)) (h : List ℕ), h.length = 8 →
      (blocks.foldl (fun h block => compressBlock h (bytesToWords block))
        h).length = 8 := by
    intro blocks
    induction blocks with
    | nil => intro h hh; exact hh
    | cons b t ih =>
        intro h hh
        exact ih _ (compressBlock_length h (bytesToWords b) hh)
  exact hgen _ H0256 rfl

lemma length_flatMap_const (l : List α) (f : α → List β) (k : ℕ)
    (hf : ∀ x ∈ l, (f x).length = k) : (l.flatMap f).length = k * l.length := by
  induction l with
  | nil => simp
  | cons a t ih =>
      rw [List.flatMap_cons, List.length_append, hf a (List.mem_cons_self a t),
        ih fun x hx => hf x (List.mem_cons_of_mem a hx), List.length_cons]
      ring

lemma sha256Bytes_length (msg : List ℕ) : (sha256Bytes msg).length = 32 := by
  unfold sha256Bytes
  rw [length_flatMap_const (sha256Words msg)
    (fun w => [(w >>> 24) % 256, (w >>> 16) % 256, (w >>> 8) % 256, w % 256])
    4 (fun x _ => rfl), sha256Words_length]

lemma hexDigest_data_length (msg : List ℕ) :
    (hexDigest msg).data.length = 64 := by
  show ((sha256Bytes msg).flatMap
    (fun b => [hexChar (b / 16), hexChar (b % 16)])).length = 64
  rw [length_flatMap_const (sha256Bytes msg)
    (fun b => [hexChar (b / 16), hexChar (b % 16)]) 2 (fun x _ => rfl),
    sha256Bytes_length]

lemma hash8_data_length (t s : String) (i : ℕ) :
    (hash8 t s i).data.length = 8 := by
  show ((((hexDigest (strBytes
    (t ++ ":" ++ s ++ ":" ++ toString i))).data.take 8).map
      asciiUpper).length) = 8
  rw [List.length_map, List.length_take, hexDigest_data_length]
  decide

lemma decision_id_ne_of_known_types :
    ∀ t ∈ ["ARCH_DECISION", "SECURITY_BOUNDARY", "PERFORMANCE_CONSTRAINT",
            "PR_DECISION", "ADR"],
    ∀ t2 ∈ ["ARCH_DECISION", "SECURITY_BOUNDARY", "PERFORMANCE_CONSTRAINT",
            "PR_DECISION", "ADR"],
      t ≠ t2 → ∀ (s : String) (i : ℕ) (s2 : String) (i2 : ℕ),
        decision_id t s i ≠ decision_id t2 s2 i2 := by
  intro t ht t2 ht2 hne s i s2 i2 heq
  unfold decision_id at heq
  have hdata := congrArg String.data heq
  rw [String.data_append, String.data_append, String.data_append,
    String.data_append] at hdata
  have hlen := congrArg List.length hdata
  rw [List.length_append, List.length_append, List.length_append,
    List.length_append, hash8_data_length, hash8_data_length] at hlen
  have hlenp : (pfxOf t).data.length = (pfxOf t2).data.length := by omega
  have hpfx : (pfxOf t).data = (pfxOf t2).data := by
    have hout := (List.append_inj hdata
      (by rw [List.length_append, List.length_append, hlenp])).1
    exact (List.append_inj hout hlenp).1
  simp only [List.mem_cons, List.not_mem_nil, or_false] at ht ht2
  rcases ht with rfl | rfl | rfl | rfl | rfl <;>
    rcases ht2 with rfl | rfl | rfl | rfl | rfl <;>
    first
      | exact hne rfl
      | exact absurd hpfx (by decide)

lemma decision_id_ne_of_hash8 :
    ∀ (t s : String) (i : ℕ) (s2 : String) (i2 : ℕ),
      hash8 t s i ≠ hash8 t s2 i2 →
      decision_id t s i ≠ decision_id t s2 i2 := by
  intro t s i s2 i2 hne heq
  unfold decision_id at heq
  have hdata := congrArg String.data heq
  rw [String.data_append, String.data_append, String.data_append,
    String.data_append] at hdata
  have h2 := List.append_cancel_left hdata
  exact hne (congrArg String.mk h2)

/-- The id-assignment loop of `main` in scripts/decision_extractor.py:
`decision_index` is one run-global counter, incremented once per
extracted decision across the inline-tag, ADR and PR phases; the
decision at position `i` of the run's extraction order, with the given
(type, source) pair, gets `_decision_id(type, source, start + i)`. -/
def assignIdsFrom (start : ℕ) : List (String × String) → List String
  | [] => []
  | t :: rest => decision_id t.1 t.2 start :: assignIdsFrom (start + 1) rest

/-- The ids one extraction run generates for its decisions, listed as
(type, source) pairs in scan order (`decision_index` starts at 0). -/
def assignDecisionIds (tags : List (String × String)) : List String :=
  assignIdsFrom 0 tags

lemma assignIdsFrom_get? (tags : List (String × String)) :
    ∀ (start i : ℕ),
      (assignIdsFrom start tags).get? i
        = (tags.get? i).map fun t => decision_id t.1 t.2 (start + i) := by
  induction tags with
  | nil => intro start i; rfl
  | cons t rest ih =>
      intro start i
      cases i with
      | zero => rfl
      | succ i =>
          show (assignIdsFrom (start + 1) rest).get? i = _
          rw [ih (start + 1) i]
          have : start + 1 + i = start + (i + 1) := by omega
          rw [this]
          rfl

/-- C6 counterexample: a collision WITHIN one extraction run. A run that
scans one ARCH_DECISION tag in scripts/mod_448.py and then one in
scripts/mod_24145.py assigns them the run-global ordinals 0 and 1 — two
distinct triples occurring in the same run — yet both get the SAME id
`ARCH-038562E5`: the 8-hex (32-bit) truncation of SHA-256 collides. -/
theorem claim6_counterexample :
    (assignDecisionIds
        [("ARCH_DECISION", "scripts/mod_448.py"),
         ("ARCH_DECISION", "scripts/mod_24145.py")]).get? 0
      = (assignDecisionIds
        [("ARCH_DECISION", "scripts/mod_448.py"),
         ("ARCH_DECISION", "scripts/mod_24145.py")]).get? 1 ∧
    (assignDecisionIds
        [("ARCH_DECISION", "scripts/mod_448.py"),
         ("ARCH_DECISION", "scripts/mod_24145.py")]).get? 0
      = some "ARCH-038562E5" ∧
    ("ARCH_DECISION", "scripts/mod_448.py", 0)
      ≠ ("ARCH_DECISION", "scripts/mod_24145.py", (1 : ℕ)) := by
  refine ⟨by decide, by decide, by decide⟩

/-- C6 (amended): `_decision_id` is deterministic — the same
(type, source, ordinal) triple always yields the same id. Within one
extraction run (whose run-global `decision_index` gives each decision
its scan position as ordinal), two decisions whose tag types differ
among the five known types always receive distinct ids, and two
same-type decisions receive distinct ids whenever their truncated
8-hex-digit SHA-256 digests differ — but distinctness of every pair of
the run's (necessarily distinct) triples is not guaranteed: the 32-bit
truncation admits within-run collisions. -/
theorem claim6_theorem :
    (∀ (t s : String) (i : ℕ) (t2 s2 : String) (i2 : ℕ),
      t = t2 → s = s2 → i = i2 →
      decision_id t s i = decision_id t2 s2 i2) ∧
    (∀ (tags : List (String × String)) (i j : ℕ) (ti si tj sj : String),
      tags.get? i = some (ti, si) → tags.get? j = some (tj, sj) →
      ti ∈ ["ARCH_DECISION", "SECURITY_BOUNDARY", "PERFORMANCE_CONSTRAINT",
            "PR_DECISION", "ADR"] →
      tj ∈ ["ARCH_DECISION", "SECURITY_BOUNDARY", "PERFORMANCE_CONSTRAINT",
            "PR_DECISION", "ADR"] →
      ti ≠ tj →
      (assignDecisionIds tags).get? i ≠ (assignDecisionIds tags).get? j) ∧
    (∀ (tags : List (String × String)) (i j : ℕ) (ti si tj sj : String),
      tags.get? i = some (ti, si) → tags.get? j = some (tj, sj) →
      ti = tj → hash8 ti si i ≠ hash8 tj sj j →
      (assignDecisionIds tags).get? i ≠ (assignDecisionIds tags).get? j) := by
  refine ⟨?_, ?_, ?_⟩
  · intro t s i t2 s2 i2 h1 h2 h3
    rw [h1, h2, h3]
  · intro tags i j ti si tj sj hgi hgj hti htj hne heq
    unfold assignDecisionIds at heq
    rw [assignIdsFrom_get?, assignIdsFrom_get?, hgi, hgj] at heq
    simp only [Option.map_some', Option.some.injEq, Nat.zero_add] at heq
    exact decision_id_ne_of_known_types ti hti tj htj hne si i sj j heq
  · intro tags i j ti si tj sj hgi hgj hty hne heq
    unfold assignDecisionIds at heq
    rw [assignIdsFrom_get?, assignIdsFrom_get?, hgi, hgj] at heq
    simp only [Option.map_some', Option.some.injEq, Nat.zero_add] at heq
    subst hty
    exact decision_id_ne_of_hash8 ti si i sj j hne heq

/-- C6 witness: the amended theorem applied at concrete runs. -/
theorem claim6_witness :
    decision_id "ARCH_DECISION" "scripts/a.py" 0
      = decision_id "ARCH_DECISION" "scripts/a.py" 0 ∧
    (assignDecisionIds [("ARCH_DECISION", "scripts/a.py"),
        ("SECURITY_BOUNDARY", "scripts/b.py")]).get? 0
      ≠ (assignDecisionIds [("ARCH_DECISION", "scripts/a.py"),
        ("SECURITY_BOUNDARY", "scripts/b.py")]).get? 1 ∧
    (assignDecisionIds [("ARCH_DECISION", "scripts/a.py"),
        ("ARCH_DECISION", "scripts/b.py")]).get? 0
      ≠ (assignDecisionIds [("ARCH_DECISION", "scripts/a.py"),
        ("ARCH_DECISION", "scripts/b.py")]).get? 1 :=
  ⟨claim6_theorem.1 "ARCH_DECISION" "scripts/a.py" 0 _ _ _ rfl rfl rfl,
   claim6_theorem.2.1 [("ARCH_DECISION", "scripts/a.py"),
      ("SECURITY_BOUNDARY", "scripts/b.py")] 0 1 "ARCH_DECISION"
      "scripts/a.py" "SECURITY_BOUNDARY" "scripts/b.py" rfl rfl
      (by decide) (by decide) (by decide),
   claim6_theorem.2.2 [("ARCH_DECISION", "scripts/a.py"),
      ("ARCH_DECISION", "scripts/b.py")] 0 1 "ARCH_DECISION"
      "scripts/a.py" "ARCH_DECISION" "scripts/b.py" rfl rfl rfl
      (by decide)⟩

/-! ## scripts/decision_extractor.py — secret scrubbing, extraction,
merge. The `re` regex engine is Python stdlib; the tag matches it yields
(`group(1)`, `group(2)`, start line) are modelled as explicit inputs to
the extraction functions, which quantify over every possible match list
— strictly more than the real engine produces. -/

/-- The character class of `_SECRET_RE`: `[A-Za-z0-9+/=]`. -/
def isTokChar (c : Char) : Bool :=
  (65 ≤ c.toNat ∧ c.toNat ≤ 90) ∨ (97 ≤ c.toNat ∧ c.toNat ≤ 122) ∨
  (48 ≤ c.toNat ∧ c.toNat ≤ 57) ∨ c = '+' ∨ c = '/' ∨ c = '='

/-- The replacement text of `_scrub_secrets`. -/
def REDACTED : List Char := ['[', 'R', 'E', 'D', 'A', 'C', 'T', 'E', 'D', ']']

/-- `_scrub_secrets`: replace every maximal run of 32 or more
`isTokChar` characters by `[REDACTED]` (the regex `{32,}` is greedy, so
each match is a maximal run). -/
def scrubSecrets : List Char → List Char
  | [] => []
  | c :: rest =>
    if h : isTokChar c then
      (if 32 ≤ ((c :: rest).takeWhile isTokChar).length then REDACTED
       else (c :: rest).takeWhile isTokChar) ++
        scrubSecrets ((c :: rest).dropWhile isTokChar)
    else c :: scrubSecrets rest
termination_by l => l.length
decreasing_by
  · rw [List.dropWhile_cons_of_pos h]
    exact Nat.lt_succ_of_le (List.dropWhile_sublist isTokChar).length_le
  · exact Nat.lt_succ_self rest.length

/-- `_scrub_secrets` on strings. -/
def scrubStr (s : String) : String := String.mk (scrubSecrets s.data)

/-- Python `str.strip()` on strings. -/
def pyStripStr (s : String) : String := String.mk (pyStrip s.data)

/-- Python `str.upper()` (ASCII range suffices for the tag names). -/
def pyUpperStr (s : String) : String := String.mk (s.data.map asciiUpper)

/-- A match of `_TAG_PATTERN`: the tag group as matched (any case), the
context group, and the 1-based line of the match start. -/
structure TagMatch where
  tag_group : String
  raw_context : String
  start_line : ℕ
deriving DecidableEq

/-- A decision record of decision_log.json (optional keys as options,
empty string for the unset `decision_id` before assignment). -/
structure Decision where
  decision_id : String := ""
  type : String
  context : String
  rationale : String
  tradeoffs : String
  source : String
  related_files : List String
  timestamp : String := ""
  pr_number : Option ℕ := none
deriving DecidableEq

/-- The record built for one inline tag match in `extract_inline_tags`:
type uppercased, context scrubbed after stripping, `file:line` source. -/
def decisionOfInlineMatch (rel_path : String) (m : TagMatch) : Decision :=
  { type := pyUpperStr m.tag_group
    context := scrubStr (pyStripStr m.raw_context)
    rationale := ""
    tradeoffs := ""
    source := rel_path ++ ":" ++ toString m.start_line
    related_files := [rel_path] }

/-- `extract_inline_tags` over the matches found in one file. -/
def extract_inline_tags (rel_path : String) (ms : List TagMatch) :
    List Decision :=
  ms.map (decisionOfInlineMatch rel_path)

/-- `extract_pr_decisions` over the matches found in a PR body. The type
falls back to "PR_DECISION" only for a tag outside the three known ones
(unreachable with the real pattern, kept as in the source). -/
def extract_pr_decisions (pr_number : ℕ) (ms : List TagMatch) :
    List Decision :=
  ms.map fun m =>
    let tag_type := pyUpperStr m.tag_group
    { type :=
        if tag_type ≠ "ARCH_DECISION" ∧ tag_type ≠ "SECURITY_BOUNDARY" ∧
            tag_type ≠ "PERFORMANCE_CONSTRAINT" then "PR_DECISION"
        else tag_type
      context := scrubStr (pyStripStr m.raw_context)
      rationale := ""
      tradeoffs := ""
      source := "pr/" ++ toString pr_number
      related_files := []
      pr_number := some pr_number }

/-- Worker for `re.split(r"\n\n+")`: split at each maximal run of two or
more newlines; `acc` is the current segment reversed, `pending` counts
newlines not yet committed. -/
def splitParasGo : List Char → List Char → ℕ → List (List Char)
  | [], acc, pending =>
      if 2 ≤ pending then [acc.reverse, []]
      else [(List.replicate pending '\n' ++ acc).reverse]
  | c :: rest, acc, pending =>
      if c = '\n' then splitParasGo rest acc (pending + 1)
      else if 2 ≤ pending then
        acc.reverse :: splitParasGo rest [c] 0
      else splitParasGo rest (c :: List.replicate pending '\n' ++ acc) 0

/-- `re.split(r"\n\n+", content)`. -/
def splitParas (l : List Char) : List (List Char) := splitParasGo l [] 0

/-- The decision built by `extract_adr_files` for one ADR file: second
paragraph if present, else first, else the title fallback — which is the
file name, since a whitespace-only content (the only way to have no
paragraphs) has no `# ` heading line; truncated to 500 chars then
scrubbed. -/
def extract_adr_file (fname rel_path : String) (content : String) :
    Decision :=
  let paragraphs := ((splitParas content.data).map pyStrip).filter (· ≠ [])
  let chosen : List Char :=
    if 1 < paragraphs.length then paragraphs.getD 1 []
    else if paragraphs ≠ [] then paragraphs.getD 0 []
    else fname.data
  { type := "ADR"
    context := scrubStr (pyTake (String.mk chosen) 500)
    rationale := ""
    tradeoffs := ""
    source := rel_path
    related_files := [rel_path] }

/-- Worker for `deduplicate_decisions`: a Python dict as an assoc list —
first-insertion order, last value wins; empty (falsy) ids skipped. -/
def dedupGo : List Decision → List (String × Decision) →
    List (String × Decision)
  | [], seen => seen
  | d :: rest, seen =>
      if d.decision_id ≠ "" then
        if (seen.lookup d.decision_id).isSome then
          dedupGo rest (seen.map fun p =>
            if p.1 = d.decision_id then (p.1, d) else p)
        else dedupGo rest (seen ++ [(d.decision_id, d)])
      else dedupGo rest seen

/-- `deduplicate_decisions`: remove duplicate ids, newest (last) wins. -/
def deduplicate_decisions (ds : List Decision) : List Decision :=
  (dedupGo ds []).map Prod.snd

/-- Stable insertion into a descending-by-timestamp list (a later
element goes after earlier elements with an equal key). -/
def insertDesc (x : Decision) : List Decision → List Decision
  | [] => [x]
  | e :: rest =>
      if x.timestamp ≤ e.timestamp then e :: insertDesc x rest
      else x :: e :: rest

/-- Python's stable `list.sort(key=timestamp, reverse=True)`. -/
def sortByTimestampDesc (ds : List Decision) : List Decision :=
  ds.foldl (fun acc d => insertDesc d acc) []

/-- The `historical_pr_decisions` filter in `main`: keeps only existing
records whose type is literally "PR_DECISION" AND whose source starts
with "pr/". -/
def historical_pr_decisions (existing : List Decision) : List Decision :=
  existing.filter fun d =>
    d.type = "PR_DECISION" ∧ pyStartsWith d.source "pr/"

/-- The merge step of `main` in scripts/decision_extractor.py: current
scan results plus the non-colliding historical PR_DECISION records,
deduplicated, sorted newest first. -/
def mergeDecisions (existing new_decisions : List Decision) :
    List Decision :=
  let historical := historical_pr_decisions existing
  let all_decisions := new_decisions ++ historical.filter fun d =>
    ¬ new_decisions.any fun n => n.decision_id = d.decision_id
  sortByTimestampDesc (deduplicate_decisions all_decisions)

/-- The redaction guarantee, as a predicate on stored text: no substring
of 32 or more consecutive characters of the `[A-Za-z0-9+/=]` class. -/
def noLongTokenRun (s : String) : Prop :=
  ∀ sub : List Char, sub.length = 32 → sub.all isTokChar = true →
    ¬ sub <:+: s.data

lemma prefix_append_cases {α : Type} {t l₁ l₂ : List α} (h : t <+: l₁ ++ l₂) :
    t <+: l₁ ∨ ∃ t₂, t = l₁ ++ t₂ ∧ t₂ <+: l₂ := by
  induction l₁ generalizing t with
  | nil => exact Or.inr ⟨t, rfl, by simpa using h⟩
  | cons a l₁ ih =>
      cases t with
      | nil => exact Or.inl (List.nil_prefix)
      | cons b t' =>
          rw [List.cons_append] at h
          obtain ⟨rfl, h'⟩ := List.cons_prefix_cons.mp h
          rcases ih h' with h1 | ⟨t₂, rfl, h2⟩
          · exact Or.inl (List.cons_prefix_cons.mpr ⟨rfl, h1⟩)
          · exact Or.inr ⟨t₂, by simp, h2⟩

lemma infix_append_cases {α : Type} {t l₁ l₂ : List α} (h : t <:+: l₁ ++ l₂) :
    t <:+: l₁ ∨ t <:+: l₂ ∨
      ∃ t₁ t₂, t = t₁ ++ t₂ ∧ t₁ ≠ [] ∧ t₂ ≠ [] ∧ t₁ <:+ l₁ ∧ t₂ <+: l₂ := by
  induction l₁ generalizing t with
  | nil => exact Or.inr (Or.inl (by simpa using h))
  | cons a l₁ ih =>
      rw [List.cons_append] at h
      rcases List.infix_cons_iff.mp h with hp | hi
      · cases t with
        | nil => exact Or.inl (List.nil_infix)
        | cons b t' =>
            obtain ⟨hba, h'⟩ := List.cons_prefix_cons.mp hp
            rcases prefix_append_cases h' with h1 | ⟨t₂, ht, h2⟩
            · exact Or.inl (List.cons_prefix_cons.mpr ⟨hba, h1⟩).isInfix
            · by_cases ht2 : t₂ = []
              · subst ht2
                rw [List.append_nil] at ht
                refine Or.inl ?_
                rw [ht, hba]
              · refine Or.inr (Or.inr ⟨a :: l₁, t₂, ?_, by simp, ht2,
                  List.suffix_refl _, h2⟩)
                rw [ht, hba]
                simp
      · rcases ih hi with h1 | h2 | ⟨t₁, t₂, ht, hne1, hne2, hs, hp2⟩
        · exact Or.inl (List.infix_cons h1)
        · exact Or.inr (Or.inl h2)
        · exact Or.inr (Or.inr ⟨t₁, t₂, ht, hne1, hne2,
            hs.trans (List.suffix_cons a l₁), hp2⟩)

lemma dropWhile_head_not (p : Char → Bool) :
    ∀ (l : List Char) (x : Char) (xs : List Char),
      l.dropWhile p = x :: xs → p x = false := by
  intro l
  induction l with
  | nil => intro x xs h; cases h
  | cons a t ih =>
      intro x xs h
      by_cases ha : p a
      · rw [List.dropWhile_cons_of_pos ha] at h
        exact ih x xs h
      · rw [List.dropWhile_cons_of_neg ha] at h
        cases h
        exact Bool.eq_false_iff.mpr ha

lemma scrub_no_long_run_aux :
    ∀ (n : ℕ) (l : List Char), l.length ≤ n →
    ∀ sub : List Char, sub.length = 32 → sub.all isTokChar = true →
    ¬ sub <:+: scrubSecrets l := by
  intro n
  induction n with
  | zero =>
      intro l hl sub hlen hall hin
      have hnil : l = [] := List.eq_nil_of_length_eq_zero (Nat.le_zero.mp hl)
      subst hnil
      simp only [scrubSecrets, List.infix_nil] at hin
      subst hin
      simp at hlen
  | succ n ih =>
      intro l hl sub hlen hall hin
      match l, hl with
      | [], _ =>
          simp only [scrubSecrets, List.infix_nil] at hin
          subst hin
          simp at hlen
      | c :: rest, hl =>
          have hrl : rest.length ≤ n := by
            simp only [List.length_cons] at hl
            omega
          by_cases hc : isTokChar c
          · unfold scrubSecrets at hin
            rw [dif_pos hc] at hin
            have hr2len : ((c :: rest).dropWhile isTokChar).length ≤ n := by
              rw [List.dropWhile_cons_of_pos hc]
              exact le_trans (List.dropWhile_sublist isTokChar).length_le hrl
            rcases infix_append_cases hin with hA | hB | hstr
            · by_cases hbig : 32 ≤ ((c :: rest).takeWhile isTokChar).length
              · rw [if_pos hbig] at hA
                have hle := hA.length_le
                rw [hlen] at hle
                simp [REDACTED] at hle
              · rw [if_neg hbig] at hA
                have hle := hA.length_le
                omega
            · exact ih _ hr2len sub hlen hall hB
            · obtain ⟨t₁, t₂, rfl, hne1, hne2, hsuf, hpre⟩ := hstr
              cases hr2 : (c :: rest).dropWhile isTokChar with
              | nil =>
                  rw [hr2] at hpre
                  simp only [scrubSecrets] at hpre
                  exact hne2 (List.prefix_nil.mp hpre)
              | cons d r2 =>
                  have hd := dropWhile_head_not isTokChar (c :: rest) d r2 hr2
                  rw [hr2] at hpre
                  unfold scrubSecrets at hpre
                  rw [dif_neg (by simp [hd])] at hpre
                  cases t₂ with
                  | nil => exact hne2 rfl
                  | cons e t' =>
                      obtain ⟨hed, _⟩ := List.cons_prefix_cons.mp hpre
                      have hmem : e ∈ t₁ ++ e :: t' := by simp
                      have hdt := List.all_eq_true.mp hall e hmem
                      rw [hed, hd] at hdt
                      cases hdt
          · unfold scrubSecrets at hin
            rw [dif_neg hc] at hin
            rcases List.infix_cons_iff.mp hin with hp | hi
            · cases sub with
              | nil => simp at hlen
              | cons b t' =>
                  obtain ⟨hbc, _⟩ := List.cons_prefix_cons.mp hp
                  have hbt := List.all_eq_true.mp hall b (by simp)
                  rw [hbc] at hbt
                  exact hc hbt
            · exact ih rest hrl sub hlen hall hi

/-- `_scrub_secrets` output never contains a 32+ run of token-class
characters. -/
lemma scrubStr_no_long_run (s : String) : noLongTokenRun (scrubStr s) := by
  intro sub hlen hall
  exact scrub_no_long_run_aux s.data.length s.data le_rfl sub hlen hall

/-- C7: every decision record persisted by the Decision Extractor — from
inline tags, PR bodies, or ADR documents — has a context text with no
substring of 32 or more consecutive `[A-Za-z0-9+/=]` characters: the
redaction filter runs on every path before persisting. -/
theorem claim7_theorem :
    (∀ (rel_path : String) (ms : List TagMatch) (d : Decision),
      d ∈ extract_inline_tags rel_path ms → noLongTokenRun d.context) ∧
    (∀ (pr_number : ℕ) (ms : List TagMatch) (d : Decision),
      d ∈ extract_pr_decisions pr_number ms → noLongTokenRun d.context) ∧
    (∀ fname rel_path content : String,
      noLongTokenRun (extract_adr_file fname rel_path content).context) := by
  refine ⟨?_, ?_, ?_⟩
  · intro rel_path ms d hd
    obtain ⟨m, _, rfl⟩ := List.mem_map.mp hd
    exact scrubStr_no_long_run _
  · intro pr_number ms d hd
    obtain ⟨m, _, rfl⟩ := List.mem_map.mp hd
    exact scrubStr_no_long_run _
  · intro fname rel_path content
    exact scrubStr_no_long_run _

/-- C7 witness: the theorem applied to one concrete match per source. -/
theorem claim7_witness :
    noLongTokenRun (decisionOfInlineMatch "scripts/a.py"
      ⟨"ARCH_DECISION", "use a lock", 3⟩).context ∧
    noLongTokenRun ((extract_pr_decisions 7
      [⟨"arch_decision", "label swap wins", 1⟩]).head
        (by simp [extract_pr_decisions])).context ∧
    noLongTokenRun (extract_adr_file "adr-001.md" "docs/adr-001.md"
      "# ADR-001: Use Terraform\n\nWe chose Terraform.\n").context :=
  ⟨claim7_theorem.1 "scripts/a.py" [⟨"ARCH_DECISION", "use a lock", 3⟩] _
      (by exact List.mem_map.mpr ⟨⟨"ARCH_DECISION", "use a lock", 3⟩,
        by simp, rfl⟩),
   claim7_theorem.2.1 7 [⟨"arch_decision", "label swap wins", 1⟩] _
      (List.head_mem _),
   claim7_theorem.2.2 "adr-001.md" "docs/adr-001.md"
      "# ADR-001: Use Terraform\n\nWe chose Terraform.\n"⟩

/-- An existing decision-log record that came from a PR body in an
earlier run: `extract_pr_decisions` stamps the three known tags with
their own type (the "PR_DECISION" fallback is unreachable), so the
record has type "ARCH_DECISION" and source "pr/7". -/
def prDecC9 : Decision :=
  { decision_id := "ARCH-0A1B2C3D"
    type := "ARCH_DECISION"
    context := "label swap chosen over file lock"
    rationale := ""
    tradeoffs := ""
    source := "pr/7"
    related_files := []
    timestamp := "2026-01-01T00:00:00Z"
    pr_number := some 7 }

/-- C9 (code bug): the merge in `main` keeps only existing records with
type literally "PR_DECISION", but `extract_pr_decisions` never produces
that type for the three recognised tags — so a PR-sourced decision
(type "ARCH_DECISION", source "pr/7") is silently dropped by the next
extraction run, contradicting the code's own merge comment
("existing PR-only decisions preserved") and the spec. -/
theorem claim9_theorem :
    ((extract_pr_decisions 7
        [⟨"ARCH_DECISION", "label swap chosen over file lock", 1⟩]).head
      (by simp [extract_pr_decisions])).type = "ARCH_DECISION" ∧
    ((extract_pr_decisions 7
        [⟨"ARCH_DECISION", "label swap chosen over file lock", 1⟩]).head
      (by simp [extract_pr_decisions])).source = "pr/7" ∧
    mergeDecisions [prDecC9] [] = [] := by
  refine ⟨?_, ?_, ?_⟩
  · simp [extract_pr_decisions, pyUpperStr]
    decide
  · simp [extract_pr_decisions]
    decide
  · decide

/-! ## scripts/validate_memory.py + memory_schemas.py — the Validation
Gate. Artifacts are modelled as parsed, key-complete records (a typed
decoder at the boundary): JSON-level malformation and missing required
keys cannot arise in the typed state, so the parseability check and the
key-presence parts of the validators hold by construction; the value
checks are modelled in full. -/

/-- `DECISION_TYPES` from memory_schemas.py. -/
def DECISION_TYPES : List String :=
  ["ARCH_DECISION", "SECURITY_BOUNDARY", "PERFORMANCE_CONSTRAINT",
   "PR_DECISION", "ADR"]

/-- `SIZE_LIMITS` from memory_schemas.py (bytes). -/
def SIZE_LIMITS : List (String × ℕ) :=
  [("file_embeddings.json", 15 * 1024 * 1024),
   ("doc_embeddings.json", 5 * 1024 * 1024),
   ("issue_embeddings.json", 5 * 1024 * 1024),
   ("pr_embeddings.json", 5 * 1024 * 1024),
   ("repo_graph.json", 3 * 1024 * 1024),
   ("module_map.json", 1 * 1024 * 1024),
   ("dependency_graph.json", 1 * 1024 * 1024),
   ("infra_graph.json", 2 * 1024 * 1024),
   ("ci_graph.json", 1 * 1024 * 1024),
   ("decision_log.json", 2 * 1024 * 1024),
   ("execution_log.json", 5 * 1024 * 1024)]

/-- `TOTAL_SIZE_LIMIT = 50 MB`. -/
def TOTAL_SIZE_LIMIT : ℕ := 50 * 1024 * 1024

/-- A node of repo_graph.json (the fields its validator checks). -/
structure RGNode where
  path : String
  type : String
  size_bytes : ℤ
  hash : String
deriving DecidableEq

/-- An edge of repo_graph.json (`frm`/`toF` are the JSON keys
"from"/"to", Lean keywords). -/
structure RGEdge where
  frm : String
  toF : String
  relation : String
deriving DecidableEq

/-- The metrics object of repo_graph.json (required keys by typing). -/
structure RGMetrics where
  total_files : ℕ
  python_files : ℕ
  terraform_files : ℕ
deriving DecidableEq

/-- repo_graph.json. -/
structure RepoGraph where
  schema_version : String
  generated_at : String
  nodes : List RGNode
  edges : List RGEdge
  metrics : RGMetrics
deriving DecidableEq

/-- `validate_repo_graph` (value checks; key presence by typing). -/
def validate_repo_graph (g : RepoGraph) : Bool :=
  g.schema_version = SCHEMA_VERSION ∧
  (g.nodes.all fun n =>
    n.type ∈ ["python", "terraform", "helm", "rego", "yaml", "markdown",
              "json", "shell", "other"] ∧ 0 ≤ n.size_bytes) ∧
  (g.edges.all fun e =>
    e.relation ∈ ["imports", "calls", "references", "configures",
                  "deploys", "tests", "documents"])

/-- A module of module_map.json. -/
structure ModuleRec where
  name : String
  path : String
  type : String
  files : List String
deriving DecidableEq

/-- module_map.json. -/
structure ModuleMap where
  schema_version : String
  generated_at : String
  modules : List ModuleRec
deriving DecidableEq

/-- `validate_module_map`. -/
def validate_module_map (m : ModuleMap) : Bool :=
  m.schema_version = SCHEMA_VERSION ∧
  (m.modules.all fun mod =>
    mod.type ∈ ["python_package", "terraform_module", "helm_chart",
                "rego_policy", "ci_workflow", "docs", "yaml", "other"])

/-- An entry of dependency_graph.json. -/
structure DepEntry where
  source : String
  target : String
  type : String
  depth : ℤ
deriving DecidableEq

/-- dependency_graph.json. -/
structure DepGraph where
  schema_version : String
  generated_at : String
  dependencies : List DepEntry
deriving DecidableEq

/-- `validate_dependency_graph`. -/
def validate_dependency_graph (d : DepGraph) : Bool :=
  d.schema_version = SCHEMA_VERSION ∧
  (d.dependencies.all fun dep =>
    dep.type ∈ ["direct_import", "transitive_import",
                "terraform_module_ref", "helm_dependency",
                "ci_uses_script"] ∧ 1 ≤ dep.depth)

/-- infra_graph.json: its validator only checks the schema version plus
key presence (terraform.resources/modules/providers, helm.charts), which
the typed decoder guarantees. -/
structure InfraGraph where
  schema_version : String
  generated_at : String
deriving DecidableEq

/-- `validate_infra_graph`. -/
def validate_infra_graph (g : InfraGraph) : Bool :=
  g.schema_version = SCHEMA_VERSION

/-- ci_graph.json: its validator only checks the schema version plus the
key presence of each workflow entry, guaranteed by typing. -/
structure CiGraph where
  schema_version : String
  generated_at : String
deriving DecidableEq

/-- `validate_ci_graph`. -/
def validate_ci_graph (g : CiGraph) : Bool :=
  g.schema_version = SCHEMA_VERSION

/-- decision_log.json. -/
structure DecisionLog where
  schema_version : String
  decisions : List Decision
deriving DecidableEq

/-- `validate_decision_log`. -/
def validate_decision_log (d : DecisionLog) : Bool :=
  d.schema_version = SCHEMA_VERSION ∧
  (d.decisions.all fun dec => dec.type ∈ DECISION_TYPES)

/-- execution_log.json. -/
structure ExecLog where
  schema_version : String
  runs : List RunRecord
deriving DecidableEq

/-- The parsed contents of a memory directory, plus the byte sizes of
its .json files (as found by the size walk). -/
structure MemoryState where
  repo_graph : Option RepoGraph
  module_map : Option ModuleMap
  dependency_graph : Option DepGraph
  infra_graph : Option InfraGraph
  ci_graph : Option CiGraph
  decision_log : Option DecisionLog
  execution_log : Option ExecLog
  file_embeddings : Option EmbEnvelope
  doc_embeddings : Option EmbEnvelope
  issue_embeddings : Option EmbEnvelope
  pr_embeddings : Option EmbEnvelope
  sizes : List (String × ℕ)
deriving DecidableEq

/-- The errors the gate can report (message payloads: the counts and the
first offending example, as in the formatted strings). -/
inductive GateError
  | missingRequired (fname : String)
  | schemaFailed (fname : String)
  | fileTooLarge (fname : String) (size limit : ℕ)
  | totalTooLarge (total : ℕ)
  | modelNameMismatch (fname actual : String)
  | modelVersionMismatch (fname actual : String)
  | staleEmbeddings (fname : String) (count : ℕ) (ex : String)
  | staleKeys (fname : String) (count : ℕ) (ex : String)
deriving DecidableEq

/-- `check_json_parseability`: every artifact of the typed state is
parsed JSON by construction, so this check reports nothing. -/
def check_json_parseability (_st : MemoryState) : List GateError := []

/-- `validate_file` for one artifact: per-file size limit first, then the
schema validator; absent optional files are skipped, absent required
files are errors. -/
def checkOneFile (fname : String) (optional : Bool) (sizes : List (String × ℕ))
    (present : Bool) (valid : Bool) : List GateError :=
  if ¬ present then
    if optional then [] else [GateError.missingRequired fname]
  else
    let size := (sizes.lookup fname).getD 0
    let limit := (SIZE_LIMITS.lookup fname).getD 0
    if limit ≠ 0 ∧ size > limit then [GateError.schemaFailed fname]
    else if valid then [] else [GateError.schemaFailed fname]

/-- `check_schema_validation`: every known file in `VALIDATORS` order;
decision_log, ci_graph and the four embedding files are optional at
bootstrap. -/
def check_schema_validation (st : MemoryState) : List GateError :=
  checkOneFile "repo_graph.json" false st.sizes st.repo_graph.isSome
    ((st.repo_graph.map validate_repo_graph).getD false) ++
  checkOneFile "module_map.json" false st.sizes st.module_map.isSome
    ((st.module_map.map validate_module_map).getD false) ++
  checkOneFile "dependency_graph.json" false st.sizes
    st.dependency_graph.isSome
    ((st.dependency_graph.map validate_dependency_graph).getD false) ++
  checkOneFile "infra_graph.json" false st.sizes st.infra_graph.isSome
    ((st.infra_graph.map validate_infra_graph).getD false) ++
  checkOneFile "ci_graph.json" true st.sizes st.ci_graph.isSome
    ((st.ci_graph.map validate_ci_graph).getD false) ++
  checkOneFile "decision_log.json" true st.sizes st.decision_log.isSome
    ((st.decision_log.map validate_decision_log).getD false) ++
  checkOneFile "file_embeddings.json" true st.sizes
    st.file_embeddings.isSome
    ((st.file_embeddings.map validateEmbeddings).getD false) ++
  checkOneFile "doc_embeddings.json" true st.sizes st.doc_embeddings.isSome
    ((st.doc_embeddings.map validateEmbeddings).getD false) ++
  checkOneFile "issue_embeddings.json" true st.sizes
    st.issue_embeddings.isSome
    ((st.issue_embeddings.map validateEmbeddings).getD false) ++
  checkOneFile "pr_embeddings.json" true st.sizes st.pr_embeddings.isSome
    ((st.pr_embeddings.map validateEmbeddings).getD false) ++
  checkOneFile "execution_log.json" false st.sizes st.execution_log.isSome
    ((st.execution_log.map fun e =>
      validate_execution_log e.schema_version e.runs).getD false)

/-- `check_size_budgets`: per-file limits over every .json file found,
then the 50 MB aggregate. -/
def check_size_budgets (st : MemoryState) : List GateError :=
  (st.sizes.filterMap fun p =>
    match SIZE_LIMITS.lookup p.1 with
    | none => none
    | some limit =>
        if p.2 > limit then some (GateError.fileTooLarge p.1 p.2 limit)
        else none) ++
  (let total := (st.sizes.map Prod.snd).sum
   if total > TOTAL_SIZE_LIMIT then [GateError.totalTooLarge total] else [])

/-- `check_model_version_consistency` for one embedding file: an empty
tag is skipped (Python truthiness), a non-matching one is an error. -/
def checkModelTags (fname : String) : Option EmbEnvelope → List GateError
  | none => []
  | some env =>
    (if env.model_name ≠ "" ∧ env.model_name ≠ EMBEDDING_MODEL_NAME then
      [GateError.modelNameMismatch fname env.model_name] else []) ++
    (if env.model_version ≠ "" ∧ env.model_version ≠ EMBEDDING_MODEL_VERSION
     then [GateError.modelVersionMismatch fname env.model_version] else [])

/-- `check_model_version_consistency` over the embeddings directory (the
four corpus files, in their documented order — `os.listdir` order is
unspecified). -/
def check_model_version_consistency (st : MemoryState) : List GateError :=
  checkModelTags "file_embeddings.json" st.file_embeddings ++
  checkModelTags "doc_embeddings.json" st.doc_embeddings ++
  checkModelTags "issue_embeddings.json" st.issue_embeddings ++
  checkModelTags "pr_embeddings.json" st.pr_embeddings

/-- One step of the grouping loop in `check_embedding_hash_consistency`:
the accumulator is `(checked, stale, missing)`. -/
def hashCheckStep (repo : List (String × String))
    (acc : List String × List String × List String) (rec : EmbRecord) :
    List String × List String × List String :=
  let rel := rec.file_path
  if rel = "" ∨ rel ∈ acc.1 then acc
  else
    let checked := acc.1 ++ [rel]
    if pyStartsWith rel "issue/" ∨ pyStartsWith rel "pr/" then
      (checked, acc.2.1, acc.2.2)
    else
      match repo.lookup rel with
      | none => (checked, acc.2.1, acc.2.2 ++ [rel])
      | some current_hash =>
          if current_hash ≠ rec.hash then
            (checked, acc.2.1 ++ [rel], acc.2.2)
          else (checked, acc.2.1, acc.2.2)

/-- The per-file part of `check_embedding_hash_consistency`: group by
path, flag hash mismatches as stale embeddings and missing files as
stale keys. -/
def hashCheckFile (repo : List (String × String)) (fname : String)
    (env : Option EmbEnvelope) : List GateError :=
  match env with
  | none => []
  | some env =>
    let acc := env.embeddings.foldl (hashCheckStep repo) ([], [], [])
    (if acc.2.1 ≠ [] then
      [GateError.staleEmbeddings fname acc.2.1.length (acc.2.1.headD "")]
     else []) ++
    (if acc.2.2 ≠ [] then
      [GateError.staleKeys fname acc.2.2.length (acc.2.2.headD "")]
     else [])

/-- `check_embedding_hash_consistency`: only the two code-linked
embedding files are checked (`_CODE_EMBEDDING_FILES`). -/
def check_embedding_hash_consistency (st : MemoryState)
    (repo : List (String × String)) : List GateError :=
  hashCheckFile repo "file_embeddings.json" st.file_embeddings ++
  hashCheckFile repo "doc_embeddings.json" st.doc_embeddings

/-- `main` of scripts/validate_memory.py: run all five checks, collect
every error. -/
def validateMemory (st : MemoryState) (repo : List (String × String)) :
    List GateError :=
  check_json_parseability st ++
  check_schema_validation st ++
  check_size_budgets st ++
  check_model_version_consistency st ++
  check_embedding_hash_consistency st repo

/-- The gate's exit code: 1 iff any check produced any error. -/
def gateExitCode (st : MemoryState) (repo : List (String × String)) : ℕ :=
  if validateMemory st repo = [] then 0 else 1

lemma hashCheckStep_missing (repo : List (String × String))
    (acc : List String × List String × List String) (r : EmbRecord) :
    (hashCheckStep repo acc r).2.2 = acc.2.2 ∨
    (hashCheckStep repo acc r).2.2 = acc.2.2 ++ [r.file_path] := by
  unfold hashCheckStep
  dsimp only
  split
  · exact Or.inl rfl
  · split
    · exact Or.inl rfl
    · split
      · exact Or.inr rfl
      · split
        · exact Or.inl rfl
        · exact Or.inl rfl

lemma hashCheckStep_checked (repo : List (String × String))
    (acc : List String × List String × List String) (r : EmbRecord) :
    (hashCheckStep repo acc r).1 = acc.1 ∨
    (hashCheckStep repo acc r).1 = acc.1 ++ [r.file_path] := by
  unfold hashCheckStep
  dsimp only
  split
  · exact Or.inl rfl
  · split
    · exact Or.inr rfl
    · split
      · exact Or.inr rfl
      · split
        · exact Or.inr rfl
        · exact Or.inr rfl

lemma hashCheck_missing_mono (repo : List (String × String)) :
    ∀ (records : List EmbRecord)
      (acc : List String × List String × List String),
      acc.2.2 ≠ [] →
      (records.foldl (hashCheckStep repo) acc).2.2 ≠ [] := by
  intro records
  induction records with
  | nil => intro acc h; exact h
  | cons r t ih =>
      intro acc h
      rw [List.foldl_cons]
      refine ih _ ?_
      rcases hashCheckStep_missing repo acc r with hs | hs <;> rw [hs]
      · exact h
      · simp

/-- The path-only condition under which the grouping loop files a record
under "missing" (stale key). -/
def qualifiesMissing (repo : List (String × String)) (p : String) : Prop :=
  p ≠ "" ∧ pyStartsWith p "issue/" = false ∧ pyStartsWith p "pr/" = false ∧
  repo.lookup p = none

lemma hashCheck_missing_of_qualifies (repo : List (String × String)) :
    ∀ (records : List EmbRecord)
      (acc : List String × List String × List String) (p : String),
      (∃ rec ∈ records, rec.file_path = p) → qualifiesMissing repo p →
      p ∉ acc.1 →
      (records.foldl (hashCheckStep repo) acc).2.2 ≠ [] := by
  intro records
  induction records with
  | nil =>
      rintro acc p ⟨rec, hmem, _⟩ _ _
      cases hmem
  | cons r t ih =>
      rintro acc p ⟨rec, hmem, hpath⟩ hq hnotin
      rw [List.foldl_cons]
      by_cases hrp : r.file_path = p
      · have hstep : (hashCheckStep repo acc r).2.2 = acc.2.2 ++ [p] := by
          unfold hashCheckStep
          rw [hrp]
          rw [if_neg (by push_neg; exact ⟨hq.1, hnotin⟩)]
          rw [if_neg (by rw [hq.2.1, hq.2.2.1]; simp)]
          rw [hq.2.2.2]
        refine hashCheck_missing_mono repo t _ ?_
        rw [hstep]
        simp
      · have hmem' : rec ∈ t := by
          rcases List.mem_cons.mp hmem with rfl | h
          · exact absurd hpath hrp
          · exact h
        refine ih _ p ⟨rec, hmem', hpath⟩ hq ?_
        rcases hashCheckStep_checked repo acc r with hs | hs <;> rw [hs]
        · exact hnotin
        · rw [List.mem_append, List.mem_singleton]
          push_neg
          exact ⟨hnotin, fun hpe => hrp hpe.symm⟩

lemma staleKeys_in_hashCheckFile (repo : List (String × String))
    (fname : String) (env : EmbEnvelope) (rec : EmbRecord)
    (hmem : rec ∈ env.embeddings) (hne : rec.file_path ≠ "")
    (hi : pyStartsWith rec.file_path "issue/" = false)
    (hp : pyStartsWith rec.file_path "pr/" = false)
    (hlk : repo.lookup rec.file_path = none) :
    GateError.staleKeys fname
      (env.embeddings.foldl (hashCheckStep repo) ([], [], [])).2.2.length
      ((env.embeddings.foldl (hashCheckStep repo) ([], [], [])).2.2.headD "")
      ∈ hashCheckFile repo fname (some env) := by
  have hmiss :
      (env.embeddings.foldl (hashCheckStep repo) ([], [], [])).2.2 ≠ [] :=
    hashCheck_missing_of_qualifies repo env.embeddings ([], [], [])
      rec.file_path ⟨rec, hmem, rfl⟩ ⟨hne, hi, hp, hlk⟩ (by simp)
  unfold hashCheckFile
  refine List.mem_append_right _ ?_
  rw [if_pos hmiss]
  exact List.mem_singleton.mpr rfl

/-- C5 (amended): the stale-key detection of the Validation Gate applies
to EMBEDDING records, not decision records: an embedding record of
file_embeddings.json OR doc_embeddings.json referencing a non-virtual
path with no current file makes the gate report a stale-keys error for
that file and exit 1. -/
theorem claim5_theorem :
    (∀ (st : MemoryState) (repo : List (String × String))
      (env : EmbEnvelope) (rec : EmbRecord),
      st.file_embeddings = some env →
      rec ∈ env.embeddings →
      rec.file_path ≠ "" →
      pyStartsWith rec.file_path "issue/" = false →
      pyStartsWith rec.file_path "pr/" = false →
      repo.lookup rec.file_path = none →
      (∃ (n : ℕ) (ex : String),
        GateError.staleKeys "file_embeddings.json" n ex
          ∈ validateMemory st repo) ∧
      gateExitCode st repo = 1) ∧
    (∀ (st : MemoryState) (repo : List (String × String))
      (env : EmbEnvelope) (rec : EmbRecord),
      st.doc_embeddings = some env →
      rec ∈ env.embeddings →
      rec.file_path ≠ "" →
      pyStartsWith rec.file_path "issue/" = false →
      pyStartsWith rec.file_path "pr/" = false →
      repo.lookup rec.file_path = none →
      (∃ (n : ℕ) (ex : String),
        GateError.staleKeys "doc_embeddings.json" n ex
          ∈ validateMemory st repo) ∧
      gateExitCode st repo = 1) := by
  constructor
  · intro st repo env rec hfe hmem hne hi hp hlk
    have herr := staleKeys_in_hashCheckFile repo "file_embeddings.json"
      env rec hmem hne hi hp hlk
    rw [← hfe] at herr
    have hmemv : GateError.staleKeys "file_embeddings.json"
        (env.embeddings.foldl (hashCheckStep repo) ([], [], [])).2.2.length
        ((env.embeddings.foldl (hashCheckStep repo) ([], [], [])).2.2.headD "")
        ∈ validateMemory st repo := by
      unfold validateMemory check_embedding_hash_consistency
      exact List.mem_append_right _ (List.mem_append_left _ herr)
    refine ⟨⟨_, _, hmemv⟩, ?_⟩
    unfold gateExitCode
    rw [if_neg (List.ne_nil_of_mem hmemv)]
  · intro st repo env rec hde hmem hne hi hp hlk
    have herr := staleKeys_in_hashCheckFile repo "doc_embeddings.json"
      env rec hmem hne hi hp hlk
    rw [← hde] at herr
    have hmemv : GateError.staleKeys "doc_embeddings.json"
        (env.embeddings.foldl (hashCheckStep repo) ([], [], [])).2.2.length
        ((env.embeddings.foldl (hashCheckStep repo) ([], [], [])).2.2.headD "")
        ∈ validateMemory st repo := by
      unfold validateMemory check_embedding_hash_consistency
      exact List.mem_append_right _ (List.mem_append_right _ herr)
    refine ⟨⟨_, _, hmemv⟩, ?_⟩
    unfold gateExitCode
    rw [if_neg (List.ne_nil_of_mem hmemv)]

/-- A small, fully valid memory state shared by the C5 scenario: all
required artifacts present and schema-clean, small sizes. -/
def baseStateC5 : MemoryState :=
  { repo_graph := some ⟨"1.0", "2026-01-01T00:00:00Z", [], [], ⟨0, 0, 0⟩⟩
    module_map := some ⟨"1.0", "2026-01-01T00:00:00Z", []⟩
    dependency_graph := some ⟨"1.0", "2026-01-01T00:00:00Z", []⟩
    infra_graph := some ⟨"1.0", "2026-01-01T00:00:00Z"⟩
    ci_graph := none
    decision_log := some ⟨"1.0",
      [{ decision_id := "ARCH-00000001", type := "ARCH_DECISION",
         context := "use a lock", rationale := "", tradeoffs := "",
         source := "scripts/gone.py:3",
         related_files := ["scripts/gone.py"],
         timestamp := "2026-01-01T00:00:00Z" }]⟩
    execution_log := some ⟨"1.0", []⟩
    file_embeddings := none
    doc_embeddings := none
    issue_embeddings := none
    pr_embeddings := none
    sizes := [("repo_graph.json", 120), ("module_map.json", 80),
              ("dependency_graph.json", 80), ("infra_graph.json", 90),
              ("decision_log.json", 300), ("execution_log.json", 60)] }

/-- The repository contents for the C5 scenario: `scripts/gone.py`,
named by the decision record, does not exist. -/
def repoC5 : List (String × String) := [("scripts/a.py", "sha256:aa")]

/-- C5 counterexample: a decision record whose related file
(`scripts/gone.py`) was deleted produces NO error at all — the gate
reports nothing and exits 0, because no check inspects decision-record
related files; "stale key" detection reads embedding records only. -/
theorem claim5_counterexample :
    (∃ dl ∈ (baseStateC5.decision_log.map DecisionLog.decisions).getD [],
      "scripts/gone.py" ∈ dl.related_files) ∧
    repoC5.lookup "scripts/gone.py" = none ∧
    validateMemory baseStateC5 repoC5 = [] ∧
    gateExitCode baseStateC5 repoC5 = 0 := by
  refine ⟨by decide, by decide, by decide, by decide⟩

/-- The C5 witness state: the base state plus file_embeddings and
doc_embeddings archives, each holding one valid record whose path
(`scripts/ghost.py`, `docs/ghost.md`) has no current file. -/
def ghostStateC5 : MemoryState :=
  { baseStateC5 with
    file_embeddings := some ⟨"1.0", EMBEDDING_MODEL_NAME,
      EMBEDDING_MODEL_VERSION, "2026-01-01T00:00:00Z",
      [⟨"scripts/ghost.py", "sha256:gg", 0, 1,
        List.replicate EMBEDDING_DIM 0⟩]⟩
    doc_embeddings := some ⟨"1.0", EMBEDDING_MODEL_NAME,
      EMBEDDING_MODEL_VERSION, "2026-01-01T00:00:00Z",
      [⟨"docs/ghost.md", "sha256:dd", 0, 1,
        List.replicate EMBEDDING_DIM 0⟩]⟩
    sizes := baseStateC5.sizes ++
      [("file_embeddings.json", 4000), ("doc_embeddings.json", 3000)] }

/-- C5 witness: both halves of the amended theorem applied to the
ghost-record state. -/
theorem claim5_witness :
    ((∃ (n : ℕ) (ex : String),
      GateError.staleKeys "file_embeddings.json" n ex
        ∈ validateMemory ghostStateC5 repoC5) ∧
     gateExitCode ghostStateC5 repoC5 = 1) ∧
    ((∃ (n : ℕ) (ex : String),
      GateError.staleKeys "doc_embeddings.json" n ex
        ∈ validateMemory ghostStateC5 repoC5) ∧
     gateExitCode ghostStateC5 repoC5 = 1) :=
  ⟨claim5_theorem.1 ghostStateC5 repoC5 _
    ⟨"scripts/ghost.py", "sha256:gg", 0, 1,
      List.replicate EMBEDDING_DIM 0⟩
    rfl (by decide) (by decide) (by decide) (by decide) (by decide),
   claim5_theorem.2 ghostStateC5 repoC5 _
    ⟨"docs/ghost.md", "sha256:dd", 0, 1,
      List.replicate EMBEDDING_DIM 0⟩
    rfl (by decide) (by decide) (by decide) (by decide) (by decide)⟩

end RayMemory
